import Mathlib

/-!
# Verification of the open-space planning cycle core

Shallow embedding of `modules/planning/open_space_planning.{h,cc}`
(class `OpenSpacePlanning`): the vehicle-state gate, the cycle
orchestrator `RunOnce`, the `Plan` stage, the gear-segment trajectory
partitioner `TrajectoryPartition`, the predicted-environment builder
`BuildPredictedEnvironment` and the collision checker
`IsCollisionFreeTrajectory`.

Modelling conventions:
* C++ `double` values that only flow through exact arithmetic
  (+, -, *, comparisons) are modelled as `ℚ`.
* Transcendental library calls (`std::sqrt`, `std::cos`, `std::sin`,
  and the `tanh`-based steering-to-curvature map) are collected in a
  `MathOracle` record of functions `ℚ → ℚ`; theorems quantify over the
  oracle, and concrete evaluations instantiate it with functions that
  agree with the real ones on every argument actually passed.
* The vehicle-state gate applies `std::isnan` to raw doubles, so the
  fields of `VehicleState` are modelled by `FVal`, a tagged value that
  distinguishes finite rationals from NaN and the two infinities.
  Arithmetic on non-finite doubles is never needed by the properties
  proved here; `FVal.toQ` projects a finite value to its rational.
* Fallible or undefined behaviour (an out-of-bounds
  `std::vector::operator[]`, the unbounded initial-gear scan running
  past the end of the trajectory) is modelled by `Option`, with `none`
  for the undefined outcome.
* External collaborators (clock, vehicle-state provider, trajectory
  stitcher, planner strategy, frame initialisation, obstacle
  prediction, the `PlanningBase` fallback trajectory, `Box2d`
  overlap geometry) are inputs of the cycle, bundled in `CycleEnv`.
-/

namespace OpenSpace

/-- Oracle for the transcendental `<cmath>` calls used by the source:
`std::sqrt` (arc length), `std::cos`/`std::sin` (ego-box shift) and the
composite map `steer ↦ tanh(steer · 470 · π / 180 / 16) / 2.85`
(steering input to curvature, before the gear sign flip). -/
structure MathOracle where
  sqrtFn : ℚ → ℚ
  cosFn : ℚ → ℚ
  sinFn : ℚ → ℚ
  steerKappa : ℚ → ℚ

/-- A double value as classified by the state gate: a finite rational,
NaN, or an infinity.  Mirrors the IEEE classification that
`std::isnan` observes. -/
inductive FVal where
  | fin (q : ℚ)
  | nan
  | inf
  | ninf
  deriving DecidableEq, Repr

/-- Source `std::isnan`. -/
def FVal.isNaN : FVal → Bool
  | .nan => true
  | _ => false

/-- Finiteness of a double (true exactly for `fin`). -/
def FVal.isFinite : FVal → Bool
  | .fin _ => true
  | _ => false

/-- Rational content of a finite double; non-finite values are never
projected by the properties proved here. -/
def FVal.toQ : FVal → ℚ
  | .fin q => q
  | _ => 0

/-- Source `apollo::common::VehicleState`, restricted to the fields read by
this translation unit. -/
structure VehicleState where
  x : FVal := .fin 0
  y : FVal := .fin 0
  z : FVal := .fin 0
  heading : FVal := .fin 0
  kappa : FVal := .fin 0
  linearVelocity : FVal := .fin 0
  linearAcceleration : FVal := .fin 0
  timestamp : FVal := .fin 0
  deriving DecidableEq, Repr

/-- Source `IsVehicleStateValid` (anonymous namespace): returns `false` iff
`std::isnan` holds of one of the seven checked fields. -/
def isVehicleStateValid (vs : VehicleState) : Bool :=
  if vs.x.isNaN || vs.y.isNaN || vs.z.isNaN || vs.heading.isNaN ||
      vs.kappa.isNaN || vs.linearVelocity.isNaN ||
      vs.linearAcceleration.isNaN then
    false
  else
    true

/-- Source `apollo::common::ErrorCode`, restricted to the codes used here. -/
inductive ErrorCode where
  | ok
  | planningError
  deriving DecidableEq, Repr

/-- Source `apollo::common::Status`: an error code plus a message; equality
compares both components, as the C++ `operator==` does. -/
structure Status where
  errorCode : ErrorCode
  msg : String
  deriving DecidableEq, Repr

/-- The value `Status::OK()`. -/
def statusOK : Status := ⟨.ok, ""⟩

/-- A `PLANNING_ERROR` status carrying a message. -/
def planningError (m : String) : Status := ⟨.planningError, m⟩

/-- Source `Status::ok()`: only the error code is consulted. -/
def Status.isOk (s : Status) : Bool := s.errorCode = ErrorCode.ok

/-- Source `Status::ToString()`; the human-readable rendering carries the
message (the code prefix is immaterial to the properties proved). -/
def Status.toStr (s : Status) : String := s.msg

/-- Source `apollo::common::TrajectoryPoint` with its embedded `PathPoint`,
flattened: pose `(x, y, theta)`, arc length `s`, curvature `kappa`,
speed `v`, acceleration `a`, `relative_time`, and the raw `steer`
input consumed by the partitioner. -/
structure TrajPoint where
  x : ℚ := 0
  y : ℚ := 0
  theta : ℚ := 0
  s : ℚ := 0
  kappa : ℚ := 0
  v : ℚ := 0
  a : ℚ := 0
  relativeTime : ℚ := 0
  steer : ℚ := 0
  deriving DecidableEq, Repr

instance : Inhabited TrajPoint := ⟨{}⟩

/-- Source `apollo::canbus::Chassis::GearPosition`, restricted to the two
gears produced by the partitioner. -/
inductive GearPosition where
  | drive
  | reverse
  deriving DecidableEq, Repr

/-! ## Gear partitioner: initial-gear scan

The source `OpenSpacePlanning::TrajectoryPartition`, first phase.  The source
walks index `j` through the trajectory, skipping samples with
`|v| ≤ kepsilon` and counting the first `initial_gear_check_horizon`
non-ambiguous ones into `direction_flag`, recording in
`init_direction` the sign of the first non-ambiguous sample.  The
`while (i != initial_gear_check_horizon)` loop does not bound `j` by
the trajectory length, so a trajectory holding fewer than three
non-ambiguous samples makes `j` run past the end of the vector:
`none` models that out-of-bounds read. -/

/-- The threshold `kepsilon = 1e-2`. -/
def kepsilon : ℚ := 1 / 100

/-- The look-ahead `initial_gear_check_horizon = 3`. -/
def initialGearCheckHorizon : ℕ := 3

/-- The scan loop: remaining points, number of non-ambiguous samples
still needed, accumulated `direction_flag`, current `init_direction`.
Returns the final `(direction_flag, init_direction)`, or `none` when
the point sequence is exhausted first. -/
def gearScanAux : List TrajPoint → ℕ → ℤ → ℤ → Option (ℤ × ℤ)
  | _, 0, flag, init => some (flag, init)
  | [], _ + 1, _, _ => none
  | p :: rest, n + 1, flag, init =>
    if p.v > kepsilon then
      gearScanAux rest n (flag + 1) (if init = 0 then init + 1 else init)
    else if p.v < -kepsilon then
      gearScanAux rest n (flag - 1) (if init = 0 then init - 1 else init)
    else
      gearScanAux rest (n + 1) flag init
termination_by pts _ _ _ => pts.length

/-- Outcome of the initial-gear resolution: an undefined scan (`ub`),
the "initial speeds too small to decide gear" error branch
(`ambiguous`), or a decided gear. -/
inductive ScanOutcome where
  | ub
  | ambiguous
  | gear (g : GearPosition)
  deriving DecidableEq, Repr

/-- The decision tree following the scan: `direction_flag` beyond the
margin decides, else `init_direction` breaks the tie, else the error
branch. -/
def initialGearDecision (pts : List TrajPoint) : ScanOutcome :=
  match gearScanAux pts initialGearCheckHorizon 0 0 with
  | none => .ub
  | some (flag, init) =>
    if flag > 1 then .gear .drive
    else if flag < -1 then .gear .reverse
    else if init > 0 then .gear .drive
    else if init < 0 then .gear .reverse
    else .ambiguous

/-! ## Gear partitioner: segmentation and per-point derivation -/

/-- The output point written by the partition loop body: pose copied,
`s` set to the current `distance_s`, and `v`, `kappa`, `a` multiplied
by `gear_drive` (`-1` under Reverse).  The output protobuf point
leaves `steer` unset (default 0). -/
def outPoint (o : MathOracle) (dist : ℚ) (g : GearPosition) (p : TrajPoint) :
    TrajPoint :=
  let gd : ℚ := match g with | .drive => 1 | .reverse => -1
  { x := p.x, y := p.y, theta := p.theta, s := dist,
    kappa := o.steerKappa p.steer * gd,
    v := p.v * gd, a := p.a * gd,
    relativeTime := p.relativeTime, steer := 0 }

/-- Squared Euclidean planar distance between two input points, the
argument of `std::sqrt` in the arc-length accumulation. -/
def sqStep (q p : TrajPoint) : ℚ :=
  (p.x - q.x) * (p.x - q.x) + (p.y - q.y) * (p.y - q.y)

/-- The partition loop (`for (size_t i = 0; i < horizon; i++)`).
State: remaining input points, the previous input point (`none` at
`i = 0`), the gear of the open segment, the running `distance_s`, the
closed segments with their gears, and the open segment.  A velocity
crossing closes the segment, flips the gear and resets `distance_s`;
every point with `i > 0` then adds the Euclidean step from the
previous input point before `s` is written. -/
def segLoop (o : MathOracle) :
    List TrajPoint → Option TrajPoint → GearPosition → ℚ →
    List (List TrajPoint × GearPosition) → List TrajPoint →
    List (List TrajPoint × GearPosition)
  | [], _, g, _, closed, cur => closed ++ [(cur, g)]
  | p :: rest, prev, g, dist, closed, cur =>
    if p.v < -kepsilon ∧ g = GearPosition.drive then
      let dist' := match prev with
        | none => (0 : ℚ)
        | some q => 0 + o.sqrtFn (sqStep q p)
      segLoop o rest (some p) .reverse dist' (closed ++ [(cur, g)])
        [outPoint o dist' .reverse p]
    else if p.v > kepsilon ∧ g = GearPosition.reverse then
      let dist' := match prev with
        | none => (0 : ℚ)
        | some q => 0 + o.sqrtFn (sqStep q p)
      segLoop o rest (some p) .drive dist' (closed ++ [(cur, g)])
        [outPoint o dist' .drive p]
    else
      let dist' := match prev with
        | none => dist
        | some q => dist + o.sqrtFn (sqStep q p)
      segLoop o rest (some p) g dist' closed (cur ++ [outPoint o dist' g p])

/-- The partitioned trajectories with their gears, when the
initial-gear scan reaches a decision (`none` when the scan reads out
of bounds or takes the error branch; `trajectoryPartition` below
separates the two). -/
def partitionSegmentsOf (o : MathOracle) (pts : List TrajPoint) :
    Option (List (List TrajPoint × GearPosition)) :=
  match initialGearDecision pts with
  | .gear g => some (segLoop o pts none g 0 [] [])
  | _ => none

/-! ## Gear partitioner: segment selection and time normalisation -/

/-- The value `std::numeric_limits<double>::max()`, the initial `min_distance`
of the selection loop, as an exact rational. -/
def dblMax : ℚ := (2 ^ 53 - 1) * 2 ^ 971

/-- Squared planar distance from a partitioned point to the vehicle
position, as computed by the selection loop. -/
def selDist (vx vy : ℚ) (p : TrajPoint) : ℚ :=
  (p.x - vx) * (p.x - vx) + (p.y - vy) * (p.y - vy)

/-- Inner selection loop over the points of segment `i`, carrying
`(min_distance, current_trajectory_index, closest_trajectory_point_index)`;
a strict `<` keeps the first occurrence on ties. -/
def selectInSeg (vx vy : ℚ) (i : ℕ) :
    List TrajPoint → ℕ → ℚ × ℕ × ℕ → ℚ × ℕ × ℕ
  | [], _, acc => acc
  | p :: rest, j, (m, bi, bj) =>
    if selDist vx vy p < m then
      selectInSeg vx vy i rest (j + 1) (selDist vx vy p, i, j)
    else
      selectInSeg vx vy i rest (j + 1) (m, bi, bj)

/-- Outer selection loop over the segments. -/
def selectSegs (vx vy : ℚ) :
    List (List TrajPoint) → ℕ → ℚ × ℕ × ℕ → ℚ × ℕ × ℕ
  | [], _, acc => acc
  | seg :: rest, i, acc =>
    selectSegs vx vy rest (i + 1) (selectInSeg vx vy i seg 0 acc)

/-- The pair `(current_trajectory_index, closest_trajectory_point_index)`
chosen by the source's double loop, starting from
`min_distance = std::numeric_limits<double>::max()` and indices 0. -/
def selectClosest (vx vy : ℚ) (segs : List (List TrajPoint)) : ℕ × ℕ :=
  (selectSegs vx vy segs 0 (dblMax, 0, 0)).2

/-- Time normalisation: subtract the `relative_time` of the closest
point from every point of the selected segment. -/
def timeNormalize (seg : List TrajPoint) (closestIdx : ℕ) : List TrajPoint :=
  let shift := (seg.getD closestIdx default).relativeTime
  seg.map fun p => { p with relativeTime := p.relativeTime - shift }

/-! ## Output record (`ADCTrajectory`) -/

/-- Source `apollo::common::Header` of the output trajectory, restricted to
the fields this translation unit writes.  `Option` distinguishes unset
proto fields. -/
structure Header where
  timestampSec : Option ℚ := none
  status : Option Status := none
  lidarTimestamp : Option ℚ := none
  cameraTimestamp : Option ℚ := none
  radarTimestamp : Option ℚ := none
  deriving DecidableEq, Repr

/-- A routing header: sequence number and timestamp, the two fields
`IsDifferentRouting` compares. -/
structure RtHeader where
  sequenceNum : ℕ := 0
  timestampSec : ℚ := 0
  deriving DecidableEq, Repr

instance : Inhabited RtHeader := ⟨{}⟩

/-- Source `apollo::routing::RoutingResponse`, restricted to its header. -/
structure RoutingResponse where
  header : Option RtHeader := none
  deriving DecidableEq, Repr

/-- The estop sub-record. -/
structure EStop where
  isEstop : Bool := false
  reason : String := ""
  deriving DecidableEq, Repr

/-- Source `ADCTrajectory`, restricted to the fields this translation unit
reads or writes. -/
structure ADCTrajectory where
  header : Header := {}
  routingHeader : Option RtHeader := none
  trajectoryPoint : List TrajPoint := []
  gear : Option GearPosition := none
  estop : Option EStop := none
  notReadyReason : Option String := none
  isReplan : Option Bool := none
  latencyInitFrameTimeMs : Option ℚ := none
  latencyTotalTimeMs : Option ℚ := none
  deriving DecidableEq, Repr

instance : Inhabited ADCTrajectory := ⟨{}⟩

/-! ## `TrajectoryPartition` -/

/-- Source `OpenSpacePlanning::TrajectoryPartition`: length gate, initial
gear resolution, segmentation, selection of the closest segment, time
normalisation, and the write of the selected points and gear into the
output record.  `none` models the out-of-bounds read of the unbounded
initial-gear scan. -/
def trajectoryPartition (o : MathOracle) (vs : VehicleState)
    (pts : List TrajPoint) (pb : ADCTrajectory) :
    Option (Status × ADCTrajectory) :=
  if pts.length < initialGearCheckHorizon then
    some (planningError ("Invalid trajectory length!"), pb)
  else
    match initialGearDecision pts with
    | .ub => none
    | .ambiguous =>
      some (planningError
        ("Invalid trajectory start! initial speeds too small to decide gear"),
        pb)
    | .gear g0 =>
      let segsG := segLoop o pts none g0 0 [] []
      let segs := segsG.map Prod.fst
      let gears := segsG.map Prod.snd
      let sel := selectClosest vs.x.toQ vs.y.toQ segs
      let chosen := segs.getD sel.1 []
      let outPts := timeNormalize chosen sel.2
      some (statusOK,
        { pb with trajectoryPoint := outPts,
                  gear := some (gears.getD sel.1 .drive) })

/-! ## Predicted environment and collision checker -/

/-- Source `apollo::common::math::Box2d`, as the data the checker hands to
the overlap test: center, heading, length, width. -/
structure Box2d where
  cx : ℚ := 0
  cy : ℚ := 0
  heading : ℚ := 0
  length : ℚ := 0
  width : ℚ := 0
  deriving DecidableEq, Repr

/-- The vehicle geometry read from
`VehicleConfigHelper::Instance()->GetConfig().vehicle_param()`. -/
structure VehicleParam where
  length : ℚ := 0
  width : ℚ := 0
  backEdgeToCenter : ℚ := 0
  deriving DecidableEq, Repr

/-- An obstacle as the builder consumes it: the composite of
`Obstacle::GetPointAtTime` and `Obstacle::GetBoundingBox`, an external
query from predicted time to bounding box. -/
structure Obstacle where
  boxAt : ℚ → Box2d

/-- The ego bounding box at a trajectory sample: a box at the sample's
pose with the configured dimensions, shifted along the heading axis by
`length/2 - back_edge_to_center`. -/
def egoBoxAt (o : MathOracle) (cfg : VehicleParam) (p : TrajPoint) : Box2d :=
  let shift := cfg.length / 2 - cfg.backEdgeToCenter
  { cx := p.x + shift * o.cosFn p.theta,
    cy := p.y + shift * o.sinFn p.theta,
    heading := p.theta, length := cfg.length, width := cfg.width }

/-- The loop of `IsCollisionFreeTrajectory` over the ego samples.  The
source guards the access `predicted_bounding_rectangles_[i]` only by
`size() != 0`; an index `i` beyond the snapshot count is an
out-of-bounds `std::vector::operator[]`, modelled as `none`. -/
def collisionLoop (o : MathOracle) (cfg : VehicleParam)
    (hasOverlap : Box2d → Box2d → Bool) (env : List (List Box2d)) :
    List TrajPoint → ℕ → Option Bool
  | [], _ => some true
  | p :: rest, i =>
    if env.length ≠ 0 then
      match env[i]? with
      | none => none
      | some boxes =>
        if boxes.any fun ob => hasOverlap (egoBoxAt o cfg p) ob then
          some false
        else
          collisionLoop o cfg hasOverlap env rest (i + 1)
    else
      collisionLoop o cfg hasOverlap env rest (i + 1)

/-- Source `OpenSpacePlanning::IsCollisionFreeTrajectory`, parametric in the
external `Box2d::HasOverlap` geometry. -/
def isCollisionFreeTrajectory (o : MathOracle) (cfg : VehicleParam)
    (hasOverlap : Box2d → Box2d → Bool) (env : List (List Box2d))
    (pts : List TrajPoint) : Option Bool :=
  collisionLoop o cfg hasOverlap env pts 0

/-- The number of iterations of the builder's
`while (relative_time < FLAGS_trajectory_time_length)` loop with step
`FLAGS_trajectory_time_resolution` (the loop does not terminate for a
non-positive resolution, which the positive-flag hypothesis of the
theorems excludes). -/
def numSnapshots (timeLength timeRes : ℚ) : ℕ :=
  if 0 < timeRes then ⌈timeLength / timeRes⌉.toNat else 0

/-- Source `OpenSpacePlanning::BuildPredictedEnvironment`: one snapshot per
discretised time step, each the list of obstacle boxes at that step. -/
def buildPredictedEnvironment (obstacles : List Obstacle)
    (timeLength timeRes : ℚ) : List (List Box2d) :=
  (List.range (numSnapshots timeLength timeRes)).map fun k =>
    obstacles.map fun ob => ob.boxAt (k * timeRes)

/-! ## `FillPlanningPb` -/

/-- The header of the prediction-obstacles message; all-zero is the
default instance a protobuf accessor yields for an unset field. -/
structure PredHeader where
  lidarTimestamp : ℚ := 0
  cameraTimestamp : ℚ := 0
  radarTimestamp : ℚ := 0
  deriving DecidableEq, Repr

/-- The gflags consumed on the modelled paths.  The two debug flags
(`enable_record_debug`, `export_chart`) only populate the debug
payload, and `estimate_current_vehicle_state` only feeds the external
vehicle-state provider whose result `CycleEnv.vehicleState` already
is, so none of the three appears here. -/
structure Flags where
  publishEstop : Bool := false
  usePlanningFallback : Bool := false
  enableStitchLastTrajectory : Bool := false
  trajectoryTimeLength : ℚ := 0
  trajectoryTimeResolution : ℚ := 1
  deriving Repr

/-- The trajectory-point list after the fallback substitution of
`FillPlanningPb`: `PlanningBase::SetFallbackTrajectory` (an external
collaborator) replaces an empty point list when
`FLAGS_use_planning_fallback` is set. -/
def basePoints (flags : Flags) (fallback pts : List TrajPoint) :
    List TrajPoint :=
  if flags.usePlanningFallback ∧ pts.length = 0 then fallback else pts

/-- Source `OpenSpacePlanning::FillPlanningPb` at one `Clock::NowInSeconds()`
reading `now`: stamps the header, copies the prediction header's
sensor timestamps when that message has no header (the accessor then
yields the default instance), echoes the routing header, substitutes
the fallback trajectory when configured and the point list is empty,
and shifts every `relative_time` by `-(timestamp - now)`. -/
def fillPlanningPb (now timestamp : ℚ) (predHeader : Option PredHeader)
    (routing : RoutingResponse) (flags : Flags)
    (fallback : List TrajPoint) (pb : ADCTrajectory) : ADCTrajectory :=
  let h1 := { pb.header with timestampSec := some timestamp }
  let h2 := match predHeader with
    | none =>
      let ph : PredHeader := {}
      { h1 with lidarTimestamp := some ph.lidarTimestamp,
                cameraTimestamp := some ph.cameraTimestamp,
                radarTimestamp := some ph.radarTimestamp }
    | some _ => h1
  let pb1 := { pb with header := h2,
                       routingHeader := some (routing.header.getD default) }
  let pb2 := { pb1 with
    trajectoryPoint := basePoints flags fallback pb1.trajectoryPoint }
  let dt := timestamp - now
  { pb2 with trajectoryPoint := pb2.trajectoryPoint.map fun p =>
      { p with relativeTime := p.relativeTime - dt } }

/-! ## `RunOnce` and `Plan` -/

/-- Source `IsDifferentRouting` (anonymous namespace): header sequence
numbers or timestamps differing means different; a missing header on
either side is conservatively different. -/
def isDifferentRouting (first second : RoutingResponse) : Bool :=
  match first.header, second.header with
  | some h1, some h2 =>
    if h1.sequenceNum ≠ h2.sequenceNum then true
    else if h1.timestampSec ≠ h2.timestampSec then true
    else false
  | _, _ => true

/-- Source `PublishableTrajectory`: the header timestamp it is constructed
with plus its trajectory points. -/
structure PublishableTraj where
  headerTime : ℚ
  points : List TrajPoint
  deriving DecidableEq, Repr

/-- The external collaborators and message inputs of one cycle.
`clock` yields the successive `Clock::NowInSeconds()` readings;
`vehicleState` is the provider's state after the optional short-
horizon extrapolation; `stitcher` is
`TrajectoryStitcher::ComputeStitchingTrajectory` as a function of the
cross-cycle last publishable trajectory; `initFrameStatus` is the
outcome of `Frame::InitForOpenSpace`; `plannerStatus`/`plannerTraj`
are the planner strategy's outcome and the frame trajectory it
produced; `fallback` is the safe-stop trajectory
`PlanningBase::SetFallbackTrajectory` would substitute; `hasOverlap`
is `Box2d::HasOverlap`. -/
structure CycleEnv where
  clock : ℕ → ℚ
  updateStatus : Status
  vehicleState : VehicleState
  routing : RoutingResponse
  predictionHeader : Option PredHeader
  stitcher : Option PublishableTraj → List TrajPoint
  initFrameStatus : Status
  plannerStatus : Status
  plannerTraj : List TrajPoint
  obstacles : List Obstacle
  hasOverlap : Box2d → Box2d → Bool
  fallback : List TrajPoint

/-- The cross-cycle state owned by the orchestrator: the sequence
counter `seq_num_`, `last_publishable_trajectory_`, the frame history
(newest first, keyed by sequence number) and `last_routing_`. -/
structure PlanningState where
  seqNum : ℕ := 0
  lastPublishable : Option PublishableTraj := none
  frameHistory : List (ℕ × ADCTrajectory) := []
  lastRouting : RoutingResponse := {}
  deriving DecidableEq, Repr

instance : Inhabited PlanningState := ⟨{}⟩

/-- The `PublishableTrajectory` that `Plan` installs into
`last_publishable_trajectory_` after the planner succeeds: the frame
trajectory stamped with the cycle start time, its relative times
shifted by the stitching tail's `relative_time`, with the stitching
prefix (all but its last point) prepended when
`FLAGS_enable_stitch_last_trajectory` is set. -/
def plannedPublishable (flags : Flags) (plannerTraj stitching : List TrajPoint)
    (stitchBack : TrajPoint) (ts : ℚ) : PublishableTraj :=
  let adjusted := plannerTraj.map fun p =>
    { p with relativeTime := p.relativeTime + stitchBack.relativeTime }
  let lp0 : PublishableTraj := { headerTime := ts, points := adjusted }
  if flags.enableStitchLastTrajectory then
    { lp0 with points := stitching.dropLast ++ adjusted }
  else lp0

/-- Source `OpenSpacePlanning::Plan`: planner delegation, installation of
`last_publishable_trajectory_` (before partitioning), trajectory
partition, predicted-environment build and collision check.  Returns
the stage status, the new `last_publishable_trajectory_` when it was
assigned, and the output record; `none` propagates the undefined
behaviours of the partition scan and the collision checker. -/
def planStage (o : MathOracle) (cfg : VehicleParam) (env : CycleEnv)
    (flags : Flags) (currentTimeStamp : ℚ) (stitching : List TrajPoint)
    (stitchBack : TrajPoint) (pb : ADCTrajectory) :
    Option (Status × Option PublishableTraj × ADCTrajectory) :=
  if env.plannerStatus ≠ statusOK then
    some (env.plannerStatus, none, pb)
  else
    let lp := plannedPublishable flags env.plannerTraj stitching stitchBack
      currentTimeStamp
    match trajectoryPartition o env.vehicleState lp.points pb with
    | none => none
    | some (st, pb') =>
      if st ≠ statusOK then some (st, some lp, pb')
      else
        let penv := buildPredictedEnvironment env.obstacles
          flags.trajectoryTimeLength flags.trajectoryTimeResolution
        match isCollisionFreeTrajectory o cfg env.hasOverlap penv
            pb'.trajectoryPoint with
        | none => none
        | some true => some (statusOK, some lp, pb')
        | some false =>
          some (planningError ("Collision Check failed"), some lp, pb')

/-- Source `OpenSpacePlanning::RunOnce`: the full cycle.  Returns the new
cross-cycle state and the published output record, or `none` when the
cycle runs into source-level undefined behaviour (`back()` on an empty
stitching trajectory, the unbounded gear scan, an out-of-bounds
snapshot access). -/
def runOnce (env : CycleEnv) (flags : Flags) (cfg : VehicleParam)
    (o : MathOracle) (s : PlanningState) (pbIn : ADCTrajectory) :
    Option (PlanningState × ADCTrajectory) :=
  let startTimestamp := env.clock 0
  if ¬ isVehicleStateValid env.vehicleState then
    let pb1 := { pbIn with header :=
      { pbIn.header with status := some env.updateStatus } }
    let pb2 := fillPlanningPb (env.clock 1) startTimestamp
      env.predictionHeader env.routing flags env.fallback pb1
    some (s, pb2)
  else
    let s1 := if isDifferentRouting s.lastRouting env.routing then
        { s with lastRouting := env.routing }
      else s
    let stitching := env.stitcher s.lastPublishable
    match stitching.getLast? with
    | none => none
    | some stitchBack =>
      let frameNum := s1.seqNum
      let s2 := { s1 with seqNum := s1.seqNum + 1 }
      let initStatus :=
        if env.initFrameStatus.isOk then statusOK else env.initFrameStatus
      let pb0 := { pbIn with
        latencyInitFrameTimeMs := some (env.clock 1 - startTimestamp) }
      if ¬ initStatus.isOk then
        let pbF :=
          if flags.publishEstop then
            let estopTraj : ADCTrajectory :=
              { estop := some { isEstop := true, reason := initStatus.msg },
                header := { status := some initStatus } }
            fillPlanningPb (env.clock 2) startTimestamp env.predictionHeader
              env.routing flags env.fallback estopTraj
          else
            let pbN := { pb0 with
              notReadyReason := some initStatus.toStr,
              header := { pb0.header with status := some initStatus } }
            fillPlanningPb (env.clock 2) startTimestamp env.predictionHeader
              env.routing flags env.fallback pbN
        let pbF2 := fillPlanningPb (env.clock 3) startTimestamp
          env.predictionHeader env.routing flags env.fallback pbF
        some ({ s2 with frameHistory := (frameNum, pbF2) :: s2.frameHistory },
          pbF2)
      else
        match planStage o cfg env flags startTimestamp stitching stitchBack
            pb0 with
        | none => none
        | some (st, lpOpt, pb1) =>
          let s3 := match lpOpt with
            | none => s2
            | some lp => { s2 with lastPublishable := some lp }
          let pb2 := { pb1 with
            latencyTotalTimeMs := some ((env.clock 2 - startTimestamp) * 1000) }
          let pb3 :=
            if ¬ st.isOk then
              let pbS := { pb2 with header :=
                { pb2.header with status := some st } }
              if flags.publishEstop then
                { pbS with estop := some { isEstop := true, reason := st.msg } }
              else pbS
            else pb2
          let pb4 := { pb3 with isReplan := some (stitching.length = 1) }
          let pb5 := fillPlanningPb (env.clock 3) startTimestamp
            env.predictionHeader env.routing flags env.fallback pb4
          some ({ s3 with frameHistory := (frameNum, pb5) :: s3.frameHistory },
            pb5)

/-! ## Concrete fixtures

Shared concrete instances used by counterexamples and witnesses. -/

/-- Shorthand for a trajectory point at planar position `(x, 0)` with
speed `v` and relative time `t` (heading, steer and all other fields
zero). -/
def mkPt (x v t : ℚ) : TrajPoint := { x := x, v := v, relativeTime := t }

/-- Concrete oracle for the fixtures.  All fixture poses have
`theta = 0` and `steer = 0`, and every squared distance handed to
`sqrtFn` by a fixture run is `0` or `1`; on those arguments
`id`, `fun _ => 1`, `fun _ => 0` and `fun _ => 0` coincide with
`std::sqrt`, `std::cos`, `std::sin` and the `tanh`-based steering map,
so each fixture run computes exactly what the source computes. -/
def oId : MathOracle := ⟨id, fun _ => 1, fun _ => 0, fun _ => 0⟩

/-- The spec's partition example: velocities `[1,1,1,-1,-1,-1]`, with
the position jumping from `x = 0` to `x = 1` at the gear change. -/
def ptsC4 : List TrajPoint :=
  [mkPt 0 1 0, mkPt 0 1 1, mkPt 0 1 2,
   mkPt 1 (-1) 3, mkPt 1 (-1) 4, mkPt 1 (-1) 5]

/-- A trajectory whose first three samples are velocity-ambiguous
(`v = 0`) followed by three forward samples. -/
def ptsC5 : List TrajPoint :=
  [mkPt 0 0 0, mkPt 0 0 1, mkPt 0 0 2,
   mkPt 0 1 3, mkPt 1 1 4, mkPt 2 1 5]

/-- A pure-reverse trajectory: three samples at `v = -1`. -/
def ptsR : List TrajPoint := [mkPt 0 (-1) 0, mkPt 1 (-1) 1, mkPt 2 (-1) 2]

/-- The partitioner's output points for `ptsR` (a single Reverse
segment, velocities stored forward-positive). -/
def c8out : List TrajPoint :=
  ((trajectoryPartition oId {} ptsR {}).getD (statusOK, {})).2.trajectoryPoint

/-- A vehicle state whose `x` is positive infinity and whose other
fields are finite. -/
def vsInf : VehicleState := { x := FVal.inf }

/-! ## C6 — the vehicle-state gate -/

/-- Helper: `isNaN` detects exactly the NaN constructor. -/
lemma FVal.isNaN_eq_true_iff (v : FVal) : v.isNaN = true ↔ v = FVal.nan := by
  cases v <;> simp [FVal.isNaN]

/-- C6 counterexample: a state with `x = +∞` — a non-finite field —
passes `IsVehicleStateValid`, because the source only tests
`std::isnan`; the claim says any state containing an infinite field is
rejected. -/
theorem c6_counterexample :
    isVehicleStateValid vsInf = true ∧ vsInf.x.isFinite = false := by
  decide

/-- C6 (amended): the gate fails a cycle iff some field among
position `(x, y, z)`, heading, curvature, linear velocity and linear
acceleration is NaN; infinite (non-NaN) fields pass. -/
theorem c6_gate_rejects_iff_nan (vs : VehicleState) :
    isVehicleStateValid vs = false ↔
      vs.x = FVal.nan ∨ vs.y = FVal.nan ∨ vs.z = FVal.nan ∨
      vs.heading = FVal.nan ∨ vs.kappa = FVal.nan ∨
      vs.linearVelocity = FVal.nan ∨ vs.linearAcceleration = FVal.nan := by
  have h : isVehicleStateValid vs = false ↔
      (vs.x.isNaN || vs.y.isNaN || vs.z.isNaN || vs.heading.isNaN ||
        vs.kappa.isNaN || vs.linearVelocity.isNaN ||
        vs.linearAcceleration.isNaN) = true := by
    unfold isVehicleStateValid
    split
    · next hcond => simp [hcond]
    · next hcond => simp [hcond]
  rw [h]
  simp only [Bool.or_eq_true, FVal.isNaN_eq_true_iff]
  tauto

/-! ## C5 — ambiguous initial samples are skipped, not fatal -/

/-- A sample the initial-gear scan counts (as opposed to skips):
velocity strictly beyond the epsilon band. -/
def nonAmbiguous (p : TrajPoint) : Bool :=
  decide (p.v > kepsilon) || decide (p.v < -kepsilon)

/-- Helper: the scan exhausts the trajectory (the source's
out-of-bounds read) exactly when fewer counted samples exist than the
scan still needs. -/
lemma gearScanAux_eq_none_iff (pts : List TrajPoint) :
    ∀ (n : ℕ) (flag init : ℤ),
      gearScanAux pts n flag init = none ↔ pts.countP nonAmbiguous < n := by
  induction pts with
  | nil =>
    intro n flag init
    cases n <;> simp [gearScanAux]
  | cons p rest ih =>
    intro n flag init
    cases n with
    | zero => simp [gearScanAux]
    | succ m =>
      by_cases h1 : p.v > kepsilon
      · simp [gearScanAux, h1, ih, List.countP_cons, nonAmbiguous,
          Nat.succ_lt_succ_iff]
      · by_cases h2 : p.v < -kepsilon
        · simp [gearScanAux, h1, h2, ih, List.countP_cons, nonAmbiguous,
            Nat.succ_lt_succ_iff]
        · simp [gearScanAux, h1, h2, ih, List.countP_cons, nonAmbiguous]

/-- Helper: once `init_direction` is nonzero it never changes. -/
lemma gearScanAux_init_fixed (pts : List TrajPoint) :
    ∀ (n : ℕ) (flag init f i : ℤ), init ≠ 0 →
      gearScanAux pts n flag init = some (f, i) → i = init := by
  induction pts with
  | nil =>
    intro n flag init f i hinit h
    cases n with
    | zero =>
      simp only [gearScanAux, Option.some_inj, Prod.mk.injEq] at h
      exact h.2.symm
    | succ m => simp [gearScanAux] at h
  | cons p rest ih =>
    intro n flag init f i hinit h
    cases n with
    | zero =>
      simp only [gearScanAux, Option.some_inj, Prod.mk.injEq] at h
      exact h.2.symm
    | succ m =>
      by_cases h1 : p.v > kepsilon
      · simp only [gearScanAux, h1, if_pos, if_neg hinit] at h
        exact ih m (flag + 1) init f i hinit h
      · by_cases h2 : p.v < -kepsilon
        · simp only [gearScanAux, h1, h2, if_neg hinit, if_true, if_false] at h
          exact ih m (flag - 1) init f i hinit h
        · simp only [gearScanAux, h1, h2, if_false] at h
          exact ih (m + 1) flag init f i hinit h

/-- Helper: a terminating scan that still needed at least one counted
sample ends with a nonzero `init_direction`, so the
`AmbiguousInitialGear` branch is unreachable. -/
lemma gearScanAux_init_ne_zero (pts : List TrajPoint) :
    ∀ (n : ℕ) (flag f i : ℤ),
      gearScanAux pts (n + 1) flag 0 = some (f, i) → i ≠ 0 := by
  induction pts with
  | nil => intro n flag f i h; simp [gearScanAux] at h
  | cons p rest ih =>
    intro n flag f i h
    by_cases h1 : p.v > kepsilon
    · simp only [gearScanAux, h1, if_pos, if_true] at h
      have := gearScanAux_init_fixed rest n (flag + 1) (0 + 1) f i
        (by norm_num) h
      omega
    · by_cases h2 : p.v < -kepsilon
      · simp only [gearScanAux, h1, h2, if_true, if_false] at h
        have := gearScanAux_init_fixed rest n (flag - 1) (0 - 1) f i
          (by norm_num) h
        omega
      · simp only [gearScanAux, h1, h2, if_false] at h
        exact ih n flag f i h

/-- Helper: the shape of `initialGearDecision` once the scan result
is known. -/
lemma initialGearDecision_some (pts : List TrajPoint) (f i : ℤ)
    (h : gearScanAux pts initialGearCheckHorizon 0 0 = some (f, i)) :
    initialGearDecision pts =
      if f > 1 then ScanOutcome.gear GearPosition.drive
      else if f < -1 then ScanOutcome.gear GearPosition.reverse
      else if i > 0 then ScanOutcome.gear GearPosition.drive
      else if i < 0 then ScanOutcome.gear GearPosition.reverse
      else ScanOutcome.ambiguous := by
  unfold initialGearDecision
  rw [h]

/-- Helper: an exhausted scan yields the `ub` outcome. -/
lemma initialGearDecision_none (pts : List TrajPoint)
    (h : gearScanAux pts initialGearCheckHorizon 0 0 = none) :
    initialGearDecision pts = ScanOutcome.ub := by
  unfold initialGearDecision
  rw [h]

/-- C5 counterexample: the first three samples of `ptsC5` are all
velocity-ambiguous (`|v| ≤ ε`), yet the partitioner does not fail with
`AmbiguousInitialGear`: the scan skips the ambiguous samples, decides
`GEAR_DRIVE` from the later forward samples, and the partition
succeeds. -/
theorem c5_counterexample :
    (ptsC5.take 3).all (fun p => decide (-kepsilon ≤ p.v) &&
      decide (p.v ≤ kepsilon)) = true ∧
    initialGearDecision ptsC5 = ScanOutcome.gear GearPosition.drive ∧
    ((trajectoryPartition oId {} ptsC5 {}).map fun r => r.1) = some statusOK := by
  refine ⟨by norm_num [ptsC5, mkPt, kepsilon], ?_, ?_⟩
  · norm_num [initialGearDecision, initialGearCheckHorizon, gearScanAux,
      ptsC5, mkPt, kepsilon]
  · norm_num [trajectoryPartition, initialGearDecision,
      initialGearCheckHorizon, gearScanAux, segLoop, outPoint, sqStep,
      selectClosest, selectSegs, selectInSeg, selDist, timeNormalize,
      dblMax, kepsilon, ptsC5, mkPt, oId, FVal.toQ]

/-- C5 (amended): samples with `|v| ≤ ε` are skipped, not counted; the
`AmbiguousInitialGear` error branch is unreachable, and when the whole
trajectory holds fewer than three counted samples the unbounded scan
instead runs past the end of the point sequence (an out-of-bounds
read, modelled as the `ub` outcome). -/
theorem c5_ambiguous_branch_unreachable (pts : List TrajPoint) :
    initialGearDecision pts ≠ ScanOutcome.ambiguous ∧
    (initialGearDecision pts = ScanOutcome.ub ↔
      pts.countP nonAmbiguous < 3) := by
  cases h : gearScanAux pts initialGearCheckHorizon 0 0 with
  | none =>
    have hc := (gearScanAux_eq_none_iff pts 3 0 0).1 h
    rw [initialGearDecision_none pts h]
    exact ⟨by simp, by simpa using hc⟩
  | some fi =>
    obtain ⟨f, i⟩ := fi
    have hi : i ≠ 0 := gearScanAux_init_ne_zero pts 2 0 f i h
    have hc : ¬ pts.countP nonAmbiguous < 3 := by
      intro hlt
      rw [← gearScanAux_eq_none_iff pts 3 0 0] at hlt
      rw [show (initialGearCheckHorizon : ℕ) = 3 from rfl] at h
      rw [h] at hlt
      exact Option.some_ne_none _ hlt
    rw [initialGearDecision_some pts f i h]
    have hgear : ∃ g,
        (if f > 1 then ScanOutcome.gear GearPosition.drive
         else if f < -1 then ScanOutcome.gear GearPosition.reverse
         else if i > 0 then ScanOutcome.gear GearPosition.drive
         else if i < 0 then ScanOutcome.gear GearPosition.reverse
         else ScanOutcome.ambiguous) = ScanOutcome.gear g := by
      by_cases hf1 : f > 1
      · exact ⟨.drive, by simp [hf1]⟩
      · by_cases hf2 : f < -1
        · exact ⟨.reverse, by simp [hf1, hf2]⟩
        · by_cases hipos : i > 0
          · exact ⟨.drive, by simp [hf1, hf2, hipos]⟩
          · have hineg : i < 0 := by omega
            exact ⟨.reverse, by simp [hf1, hf2, hipos, hineg]⟩
    obtain ⟨g, hg⟩ := hgear
    rw [hg]
    exact ⟨by simp, by simp [hc]⟩

/-! ## C4 — arc length at segment boundaries -/

/-- Helper rewrite: the two gears are distinct. -/
lemma drive_eq_reverse_iff :
    (GearPosition.drive = GearPosition.reverse) = False := by simp

/-- Helper rewrite: the two gears are distinct (other orientation). -/
lemma reverse_eq_drive_iff :
    (GearPosition.reverse = GearPosition.drive) = False := by simp

/-- Evaluation of the partitioner's segmentation on the example
trajectory `ptsC4` (positions jump from `x = 0` to `x = 1` at the gear
change, so the boundary step has squared length `1`). -/
lemma partition_ptsC4_eval :
    partitionSegmentsOf oId ptsC4 =
      some [([mkPt 0 1 0, mkPt 0 1 1, mkPt 0 1 2], GearPosition.drive),
            ([{ mkPt 1 1 3 with s := 1 }, { mkPt 1 1 4 with s := 1 },
              { mkPt 1 1 5 with s := 1 }], GearPosition.reverse)] := by
  norm_num [partitionSegmentsOf, initialGearDecision,
    initialGearCheckHorizon, gearScanAux, segLoop, outPoint, sqStep,
    kepsilon, ptsC4, mkPt, oId, drive_eq_reverse_iff, reverse_eq_drive_iff]

/-- C4 counterexample: on the spec's own example velocities
`[1,1,1,-1,-1,-1]` (with the vehicle moving: the boundary step has
length `1`), the partitioner yields gears `[Drive, Reverse]` as
claimed, but the arc length at index 3 — the first point of the
second segment — is `1`, not `0`: `distance_s` is reset at the
segment boundary and then immediately incremented by the Euclidean
step from the previous input point, because the `i > 0` accumulation
does not special-case segment-opening points. -/
theorem c4_counterexample :
    ptsC4.map (·.v) = [1, 1, 1, -1, -1, -1] ∧
    ((partitionSegmentsOf oId ptsC4).getD []).map Prod.snd =
      [GearPosition.drive, GearPosition.reverse] ∧
    ((((partitionSegmentsOf oId ptsC4).getD []).map
      Prod.fst).flatten.getD 3 default).s ≠ 0 := by
  refine ⟨by norm_num [ptsC4, mkPt], ?_, ?_⟩ <;>
    rw [partition_ptsC4_eval] <;> norm_num [mkPt]

/-- C4 (amended): on velocities `[1,1,1,-1,-1,-1]` (ε = 0.01) the
partitioner produces two segments with gears `[Drive, Reverse]`; the
arc length of the first point of the *initial* segment is `0` and `s`
accumulates the Euclidean step between consecutive input points, but
the first point of the *second* segment carries
`s = sqrt(dist²(p₂, p₃))` — the step across the segment boundary —
which is `0` only when the boundary-adjacent points coincide. -/
theorem c4_arc_length_shape (o : MathOracle) (p0 p1 p2 p3 p4 p5 : TrajPoint)
    (h0 : p0.v = 1) (h1 : p1.v = 1) (h2 : p2.v = 1)
    (h3 : p3.v = -1) (h4 : p4.v = -1) (h5 : p5.v = -1) :
    partitionSegmentsOf o [p0, p1, p2, p3, p4, p5] =
      some [([outPoint o 0 GearPosition.drive p0,
              outPoint o (o.sqrtFn (sqStep p0 p1)) GearPosition.drive p1,
              outPoint o (o.sqrtFn (sqStep p0 p1) + o.sqrtFn (sqStep p1 p2))
                GearPosition.drive p2],
             GearPosition.drive),
            ([outPoint o (o.sqrtFn (sqStep p2 p3)) GearPosition.reverse p3,
              outPoint o (o.sqrtFn (sqStep p2 p3) + o.sqrtFn (sqStep p3 p4))
                GearPosition.reverse p4,
              outPoint o (o.sqrtFn (sqStep p2 p3) + o.sqrtFn (sqStep p3 p4) +
                  o.sqrtFn (sqStep p4 p5)) GearPosition.reverse p5],
             GearPosition.reverse)] := by
  norm_num [partitionSegmentsOf, initialGearDecision,
    initialGearCheckHorizon, gearScanAux, segLoop, h0, h1, h2, h3, h4, h5,
    kepsilon, drive_eq_reverse_iff, reverse_eq_drive_iff]

/-- C4 witness: the amended shape theorem applied to the concrete
example trajectory `ptsC4`. -/
theorem c4_witness :
    partitionSegmentsOf oId ptsC4 =
      some [([outPoint oId 0 GearPosition.drive (mkPt 0 1 0),
              outPoint oId (oId.sqrtFn (sqStep (mkPt 0 1 0) (mkPt 0 1 1)))
                GearPosition.drive (mkPt 0 1 1),
              outPoint oId (oId.sqrtFn (sqStep (mkPt 0 1 0) (mkPt 0 1 1)) +
                  oId.sqrtFn (sqStep (mkPt 0 1 1) (mkPt 0 1 2)))
                GearPosition.drive (mkPt 0 1 2)],
             GearPosition.drive),
            ([outPoint oId (oId.sqrtFn (sqStep (mkPt 0 1 2) (mkPt 1 (-1) 3)))
                GearPosition.reverse (mkPt 1 (-1) 3),
              outPoint oId (oId.sqrtFn (sqStep (mkPt 0 1 2) (mkPt 1 (-1) 3)) +
                  oId.sqrtFn (sqStep (mkPt 1 (-1) 3) (mkPt 1 (-1) 4)))
                GearPosition.reverse (mkPt 1 (-1) 4),
              outPoint oId (oId.sqrtFn (sqStep (mkPt 0 1 2) (mkPt 1 (-1) 3)) +
                  oId.sqrtFn (sqStep (mkPt 1 (-1) 3) (mkPt 1 (-1) 4)) +
                  oId.sqrtFn (sqStep (mkPt 1 (-1) 4) (mkPt 1 (-1) 5)))
                GearPosition.reverse (mkPt 1 (-1) 5)],
             GearPosition.reverse)] :=
  c4_arc_length_shape oId (mkPt 0 1 0) (mkPt 0 1 1) (mkPt 0 1 2)
    (mkPt 1 (-1) 3) (mkPt 1 (-1) 4) (mkPt 1 (-1) 5)
    rfl rfl rfl rfl rfl rfl

/-! ## C8 — re-running the partitioner on its own output -/

/-- Helper: with the current gear Drive and no remaining sample below
`-ε`, the partition loop never opens another segment: everything is
appended to the open segment. -/
lemma segLoop_all_drive (o : MathOracle) (pts : List TrajPoint) :
    ∀ (prev : Option TrajPoint) (dist : ℚ)
      (closed : List (List TrajPoint × GearPosition)) (cur : List TrajPoint),
      (∀ p ∈ pts, ¬ p.v < -kepsilon) →
      ∃ out, segLoop o pts prev GearPosition.drive dist closed cur =
          closed ++ [(out, GearPosition.drive)] ∧
        out.length = cur.length + pts.length := by
  induction pts with
  | nil =>
    intro prev dist closed cur _
    exact ⟨cur, rfl, by simp⟩
  | cons p rest ih =>
    intro prev dist closed cur hv
    have hplt : ¬ p.v < -kepsilon := hv p (List.mem_cons_self p rest)
    have hv2 : ∀ q ∈ rest, ¬ q.v < -kepsilon :=
      fun q hq => hv q (List.mem_cons_of_mem p hq)
    cases prev with
    | none =>
      simp only [segLoop, hplt, false_and, if_false, drive_eq_reverse_iff,
        and_false]
      obtain ⟨out, heq, hlen⟩ := ih (some p) dist closed
        (cur ++ [outPoint o dist GearPosition.drive p]) hv2
      refine ⟨out, heq, ?_⟩
      simp only [List.length_append, List.length_cons, List.length_nil]
        at hlen ⊢
      omega
    | some q =>
      simp only [segLoop, hplt, false_and, if_false, drive_eq_reverse_iff,
        and_false]
      obtain ⟨out, heq, hlen⟩ := ih (some p) (dist + o.sqrtFn (sqStep q p))
        closed (cur ++ [outPoint o (dist + o.sqrtFn (sqStep q p))
          GearPosition.drive p]) hv2
      refine ⟨out, heq, ?_⟩
      simp only [List.length_append, List.length_cons, List.length_nil]
        at hlen ⊢
      omega

/-- Helper: the inner selection loop never changes the best segment
index away from `0` when scanning segment `0` with the best index
already `0`. -/
lemma selectInSeg_fst_zero (vx vy : ℚ) (seg : List TrajPoint) :
    ∀ (j : ℕ) (m : ℚ) (bj : ℕ),
      (selectInSeg vx vy 0 seg j (m, 0, bj)).2.1 = 0 := by
  induction seg with
  | nil => intro j m bj; rfl
  | cons p rest ih =>
    intro j m bj
    simp only [selectInSeg]
    split
    · exact ih (j + 1) _ _
    · exact ih (j + 1) m bj

/-- Helper: on a one-segment partition the selected segment index is
`0`. -/
lemma selectClosest_single_fst (vx vy : ℚ) (seg : List TrajPoint) :
    (selectClosest vx vy [seg]).1 = 0 := by
  unfold selectClosest
  simp only [selectSegs]
  exact selectInSeg_fst_zero vx vy seg 0 dblMax 0

/-- C8 counterexample: run the partitioner on the pure-reverse
trajectory `ptsR`; the output is one Reverse segment whose stored
velocities are sign-flipped to forward-positive.  Re-running the
partitioner on that already-normalized output keeps the single
segment and its three points but labels it `Drive`, not `Reverse`:
the gear label is not unchanged. -/
theorem c8_counterexample :
    ((trajectoryPartition oId {} ptsR {}).map fun r => r.1) =
      some statusOK ∧
    ((trajectoryPartition oId {} ptsR {}).map fun r => r.2.gear) =
      some (some GearPosition.reverse) ∧
    c8out.map (·.v) = [1, 1, 1] ∧
    ((trajectoryPartition oId {} c8out {}).map fun r =>
      (r.1, r.2.gear, r.2.trajectoryPoint.length)) =
      some (statusOK, some GearPosition.drive, 3) := by
  refine ⟨?_, ?_, ?_, ?_⟩ <;>
    norm_num [trajectoryPartition, initialGearDecision,
      initialGearCheckHorizon, gearScanAux, segLoop, outPoint, sqStep,
      selectClosest, selectSegs, selectInSeg, selDist, timeNormalize,
      dblMax, kepsilon, ptsR, c8out, mkPt, oId, FVal.toQ,
      drive_eq_reverse_iff, reverse_eq_drive_iff]

/-- C8 (amended): on an already-normalized single-segment output with
every stored velocity strictly forward (`v > ε`, the form a normalized
segment takes after the partitioner's sign flip), re-running the
partitioner reproduces the same segment boundaries — a single segment
with the same point count — and labels it `Drive`.  The label is
therefore unchanged exactly for Drive-gear outputs; a Reverse-gear
output is re-labelled `Drive` because its stored velocities are
forward-positive (the counterexample). -/
theorem c8_rerun_single_drive_segment (o : MathOracle) (vs : VehicleState)
    (pb : ADCTrajectory) (pts : List TrajPoint)
    (hlen : 3 ≤ pts.length) (hv : ∀ p ∈ pts, kepsilon < p.v) :
    ∃ seg, partitionSegmentsOf o pts = some [(seg, GearPosition.drive)] ∧
      seg.length = pts.length ∧
      ∃ pb2, trajectoryPartition o vs pts pb = some (statusOK, pb2) ∧
        pb2.gear = some GearPosition.drive ∧
        pb2.trajectoryPoint.length = pts.length := by
  obtain ⟨a, b, c, rest, rfl⟩ : ∃ a b c rest, pts = a :: b :: c :: rest := by
    match pts, hlen with
    | a :: b :: c :: rest, _ => exact ⟨a, b, c, rest, rfl⟩
  have hva : a.v > kepsilon := hv a (by simp)
  have hvb : b.v > kepsilon := hv b (by simp)
  have hvc : c.v > kepsilon := hv c (by simp)
  have hscan :
      gearScanAux (a :: b :: c :: rest) initialGearCheckHorizon 0 0 =
        some (3, 1) := by
    simp only [initialGearCheckHorizon, gearScanAux, if_pos hva, if_pos hvb,
      if_pos hvc]
    norm_num
  have hdec : initialGearDecision (a :: b :: c :: rest) =
      ScanOutcome.gear GearPosition.drive := by
    rw [initialGearDecision_some _ 3 1 hscan]
    norm_num
  have hnolt : ∀ p ∈ (a :: b :: c :: rest), ¬ p.v < -kepsilon := by
    intro p hp hlt
    have := hv p hp
    have hk : (0 : ℚ) < kepsilon := by norm_num [kepsilon]
    linarith
  obtain ⟨seg, hseg, hseglen⟩ :=
    segLoop_all_drive o (a :: b :: c :: rest) none 0 [] [] hnolt
  have hlt : ¬ (a :: b :: c :: rest).length < initialGearCheckHorizon := by
    simp only [List.length_cons, initialGearCheckHorizon]
    omega
  refine ⟨seg, ?_, ?_, ?_⟩
  · unfold partitionSegmentsOf
    rw [hdec]
    simp [hseg]
  · simpa using hseglen
  · unfold trajectoryPartition
    rw [if_neg hlt, hdec]
    simp only [hseg, List.nil_append, List.map_cons, List.map_nil]
    refine ⟨_, rfl, ?_, ?_⟩
    · simp only [selectClosest_single_fst, List.getD_cons_zero]
    · simp only [selectClosest_single_fst, List.getD_cons_zero,
        timeNormalize, List.length_map]
      simpa using hseglen

/-- C8 witness: the amended rerun theorem applied to the normalized
Drive output `[mkPt 0 1 0, mkPt 1 1 1, mkPt 2 1 2]`. -/
theorem c8_witness :
    ∃ seg, partitionSegmentsOf oId [mkPt 0 1 0, mkPt 1 1 1, mkPt 2 1 2] =
        some [(seg, GearPosition.drive)] ∧
      seg.length = ([mkPt 0 1 0, mkPt 1 1 1, mkPt 2 1 2] :
        List TrajPoint).length ∧
      ∃ pb2, trajectoryPartition oId {} [mkPt 0 1 0, mkPt 1 1 1, mkPt 2 1 2]
          {} = some (statusOK, pb2) ∧
        pb2.gear = some GearPosition.drive ∧
        pb2.trajectoryPoint.length = ([mkPt 0 1 0, mkPt 1 1 1, mkPt 2 1 2] :
          List TrajPoint).length :=
  c8_rerun_single_drive_segment oId {} {} [mkPt 0 1 0, mkPt 1 1 1, mkPt 2 1 2]
    (by norm_num)
    (by
      intro p hp
      simp only [List.mem_cons, List.mem_singleton] at hp
      rcases hp with rfl | rfl | rfl | h
      · norm_num [mkPt, kepsilon]
      · norm_num [mkPt, kepsilon]
      · norm_num [mkPt, kepsilon]
      · cases h)

/-! ## C2 — collision-checker snapshot indexing -/

/-- C2: evaluation of the collision checker at the failing input.  A
trajectory of two samples checked against a nonempty predicted
environment holding a single snapshot: the guard
`predicted_bounding_rectangles_.size() != 0` passes, so the loop
indexes `predicted_bounding_rectangles_[1]`, one past the end of the
vector — an out-of-bounds access (`none`), not the per-index skip the
claim describes (which, with no obstacle box present, would have to
return collision-free). -/
theorem c2_oob_snapshot_access :
    isCollisionFreeTrajectory oId {} (fun _ _ => false) [[]]
      [mkPt 0 1 0, mkPt 1 1 1] = none ∧
    isCollisionFreeTrajectory oId {} (fun _ _ => false) []
      [mkPt 0 1 0, mkPt 1 1 1] = some true := by
  constructor
  · norm_num [isCollisionFreeTrajectory, collisionLoop]
  · norm_num [isCollisionFreeTrajectory, collisionLoop]

/-! ## C9 — upstream sensor timestamps in `FillPlanningPb` -/

/-- C9: the lidar/camera/radar timestamps of the output header are
populated exactly when the prediction-obstacles message has *no*
header — the source tests `!has_header()` — and the copied values are
the default-instance values (zero), since the accessor of an unset
message field yields the default instance; when the prediction
message does have a header, the three output fields are left unset. -/
theorem c9_sensor_timestamps (now ts : ℚ) (ph : Option PredHeader)
    (routing : RoutingResponse) (flags : Flags) (fb : List TrajPoint)
    (pb : ADCTrajectory)
    (hl : pb.header.lidarTimestamp = none)
    (hc : pb.header.cameraTimestamp = none)
    (hr : pb.header.radarTimestamp = none) :
    (ph = none →
      (fillPlanningPb now ts ph routing flags fb pb).header.lidarTimestamp =
        some 0 ∧
      (fillPlanningPb now ts ph routing flags fb pb).header.cameraTimestamp =
        some 0 ∧
      (fillPlanningPb now ts ph routing flags fb pb).header.radarTimestamp =
        some 0) ∧
    (∀ h, ph = some h →
      (fillPlanningPb now ts ph routing flags fb pb).header.lidarTimestamp =
        none ∧
      (fillPlanningPb now ts ph routing flags fb pb).header.cameraTimestamp =
        none ∧
      (fillPlanningPb now ts ph routing flags fb pb).header.radarTimestamp =
        none) := by
  constructor
  · rintro rfl
    simp [fillPlanningPb]
  · rintro h rfl
    simp [fillPlanningPb, hl, hc, hr]

/-- C9 witness: both branches at concrete inputs — no prediction
header (fields populated with the defaults) and a present prediction
header (fields left unset). -/
theorem c9_witness :
    ((fillPlanningPb 0 1 none {} {} [] {}).header.lidarTimestamp = some 0 ∧
     (fillPlanningPb 0 1 none {} {} [] {}).header.cameraTimestamp = some 0 ∧
     (fillPlanningPb 0 1 none {} {} [] {}).header.radarTimestamp = some 0) ∧
    ((fillPlanningPb 0 1 (some {}) {} {} [] {}).header.lidarTimestamp =
      none ∧
     (fillPlanningPb 0 1 (some {}) {} {} [] {}).header.cameraTimestamp =
      none ∧
     (fillPlanningPb 0 1 (some {}) {} {} [] {}).header.radarTimestamp =
      none) :=
  ⟨(c9_sensor_timestamps 0 1 none {} {} [] {} rfl rfl rfl).1 rfl,
   (c9_sensor_timestamps 0 1 (some {}) {} {} [] {} rfl rfl rfl).2 {} rfl⟩

/-! ## Path lemmas for `RunOnce`

Evaluation of `runOnce` along each of its control-flow paths, used by
the orchestrator-level claims. -/

/-- Helper rewrite: the status `Status::OK()` satisfies `ok()`. -/
lemma statusOK_isOk : statusOK.isOk = true := rfl

/-- Helper rewrite: pushing the routing-update conditional inside the
state record. -/
lemma routing_state_ite (c : Prop) [Decidable c] (s : PlanningState)
    (r : RoutingResponse) :
    (if c then { s with lastRouting := r } else s) =
      { s with lastRouting := if c then r else s.lastRouting } := by
  split <;> rfl

/-- The output record built by the frame-initialisation failure branch
before the two `FillPlanningPb` applications: the fresh estop record
under `FLAGS_publish_estop`, otherwise the incoming record with the
not-ready decision and status attached. -/
def initFailBase (env : CycleEnv) (flags : Flags) (pbIn : ADCTrajectory) :
    ADCTrajectory :=
  if flags.publishEstop then
    { estop := some { isEstop := true, reason := env.initFrameStatus.msg },
      header := { status := some env.initFrameStatus } }
  else
    { pbIn with
      latencyInitFrameTimeMs := some (env.clock 1 - env.clock 0),
      notReadyReason := some env.initFrameStatus.toStr,
      header := { pbIn.header with status := some env.initFrameStatus } }

/-- The final output record of the frame-initialisation failure path:
`FillPlanningPb` applied twice to `initFailBase`. -/
def initFailPb (env : CycleEnv) (flags : Flags) (pbIn : ADCTrajectory) :
    ADCTrajectory :=
  fillPlanningPb (env.clock 3) (env.clock 0) env.predictionHeader env.routing
    flags env.fallback
    (fillPlanningPb (env.clock 2) (env.clock 0) env.predictionHeader
      env.routing flags env.fallback (initFailBase env flags pbIn))

/-- The final output record of the post-`Plan` path: latency, status
save and estop on failure, the replan flag, then one
`FillPlanningPb`. -/
def postPlanPb (env : CycleEnv) (flags : Flags) (stitchLen1 : Bool)
    (st : Status) (pb1 : ADCTrajectory) : ADCTrajectory :=
  let pb2 := { pb1 with
    latencyTotalTimeMs := some ((env.clock 2 - env.clock 0) * 1000) }
  let pb3 :=
    if ¬ st.isOk then
      let pbS := { pb2 with header := { pb2.header with status := some st } }
      if flags.publishEstop then
        { pbS with estop := some { isEstop := true, reason := st.msg } }
      else pbS
    else pb2
  let pb4 := { pb3 with isReplan := some stitchLen1 }
  fillPlanningPb (env.clock 3) (env.clock 0) env.predictionHeader env.routing
    flags env.fallback pb4

/-- Evaluation of the vehicle-state-gate failure path: the provider
status is saved into the header, `FillPlanningPb` runs once, and the
cross-cycle state is returned untouched — in particular nothing is
archived and the sequence counter does not advance. -/
lemma runOnce_gate_fail_eq (env : CycleEnv) (flags : Flags)
    (cfg : VehicleParam) (o : MathOracle) (s : PlanningState)
    (pbIn : ADCTrajectory)
    (hgate : isVehicleStateValid env.vehicleState = false) :
    runOnce env flags cfg o s pbIn =
      some (s, fillPlanningPb (env.clock 1) (env.clock 0)
        env.predictionHeader env.routing flags env.fallback
        { pbIn with header :=
          { pbIn.header with status := some env.updateStatus } }) := by
  unfold runOnce
  rw [if_pos (by simp [hgate])]

/-- Evaluation when the stitcher returns no points: `back()` on an
empty vector, undefined behaviour. -/
lemma runOnce_stitch_none_eq (env : CycleEnv) (flags : Flags)
    (cfg : VehicleParam) (o : MathOracle) (s : PlanningState)
    (pbIn : ADCTrajectory)
    (hgate : isVehicleStateValid env.vehicleState = true)
    (hstitch : (env.stitcher s.lastPublishable).getLast? = none) :
    runOnce env flags cfg o s pbIn = none := by
  unfold runOnce
  rw [if_neg (by simp [hgate])]
  rw [routing_state_ite]
  simp only [hstitch]

/-- Evaluation of the frame-initialisation failure path: the cycle is
archived under the pre-increment sequence number, the counter
advances, the cross-cycle last publishable trajectory is untouched,
and the output is `initFailPb` — `FillPlanningPb` applied twice. -/
lemma runOnce_init_fail_eq (env : CycleEnv) (flags : Flags)
    (cfg : VehicleParam) (o : MathOracle) (s : PlanningState)
    (pbIn : ADCTrajectory) (sb : TrajPoint)
    (hgate : isVehicleStateValid env.vehicleState = true)
    (hstitch : (env.stitcher s.lastPublishable).getLast? = some sb)
    (hinit : env.initFrameStatus.isOk = false) :
    runOnce env flags cfg o s pbIn =
      some ({ seqNum := s.seqNum + 1,
              lastPublishable := s.lastPublishable,
              frameHistory := (s.seqNum, initFailPb env flags pbIn) ::
                s.frameHistory,
              lastRouting :=
                if isDifferentRouting s.lastRouting env.routing then
                  env.routing
                else s.lastRouting },
            initFailPb env flags pbIn) := by
  have hinit2 : ¬ env.initFrameStatus.errorCode = ErrorCode.ok := by
    simpa [Status.isOk] using hinit
  unfold runOnce
  rw [if_neg (by simp [hgate])]
  rw [routing_state_ite]
  by_cases hpe : flags.publishEstop = true <;>
    simp [hstitch, initFailPb, initFailBase, hpe, hinit2, Status.isOk,
      Status.toStr]

/-- Evaluation of the post-planner path when `Plan` ran to a defined
outcome: whatever status `Plan` returned, the cycle is archived under
the pre-increment sequence number, the counter advances, and
`last_publishable_trajectory_` is replaced exactly when `Plan`
assigned it. -/
lemma runOnce_plan_some_eq (env : CycleEnv) (flags : Flags)
    (cfg : VehicleParam) (o : MathOracle) (s : PlanningState)
    (pbIn : ADCTrajectory) (sb : TrajPoint) (st : Status)
    (lpOpt : Option PublishableTraj) (pb1 : ADCTrajectory)
    (hgate : isVehicleStateValid env.vehicleState = true)
    (hstitch : (env.stitcher s.lastPublishable).getLast? = some sb)
    (hinit : env.initFrameStatus.isOk = true)
    (hplan : planStage o cfg env flags (env.clock 0)
      (env.stitcher s.lastPublishable) sb
      { pbIn with
        latencyInitFrameTimeMs := some (env.clock 1 - env.clock 0) } =
      some (st, lpOpt, pb1)) :
    runOnce env flags cfg o s pbIn =
      some ({ seqNum := s.seqNum + 1,
              lastPublishable := lpOpt.or s.lastPublishable,
              frameHistory := (s.seqNum, postPlanPb env flags
                (decide ((env.stitcher s.lastPublishable).length = 1)) st
                pb1) :: s.frameHistory,
              lastRouting :=
                if isDifferentRouting s.lastRouting env.routing then
                  env.routing
                else s.lastRouting },
            postPlanPb env flags
              (decide ((env.stitcher s.lastPublishable).length = 1)) st
              pb1) := by
  have hinit2 : env.initFrameStatus.errorCode = ErrorCode.ok := by
    simpa [Status.isOk] using hinit
  unfold runOnce
  rw [if_neg (by simp [hgate])]
  rw [routing_state_ite]
  simp only [hstitch, hinit2, eq_self_iff_true, if_true, statusOK, not_true,
    if_false, hplan, Status.isOk, decide_eq_true_eq]
  cases lpOpt with
  | none => simp [postPlanPb, Option.or, Status.isOk]
  | some lp => simp [postPlanPb, Option.or, Status.isOk]

/-- Evaluation when `Plan` hit source-level undefined behaviour. -/
lemma runOnce_plan_none_eq (env : CycleEnv) (flags : Flags)
    (cfg : VehicleParam) (o : MathOracle) (s : PlanningState)
    (pbIn : ADCTrajectory) (sb : TrajPoint)
    (hgate : isVehicleStateValid env.vehicleState = true)
    (hstitch : (env.stitcher s.lastPublishable).getLast? = some sb)
    (hinit : env.initFrameStatus.isOk = true)
    (hplan : planStage o cfg env flags (env.clock 0)
      (env.stitcher s.lastPublishable) sb
      { pbIn with
        latencyInitFrameTimeMs := some (env.clock 1 - env.clock 0) } =
      none) :
    runOnce env flags cfg o s pbIn = none := by
  have hinit2 : env.initFrameStatus.errorCode = ErrorCode.ok := by
    simpa [Status.isOk] using hinit
  unfold runOnce
  rw [if_neg (by simp [hgate])]
  rw [routing_state_ite]
  simp only [hstitch, hinit2, eq_self_iff_true, if_true, statusOK, not_true,
    if_false, hplan, Status.isOk, decide_eq_true_eq]

/-- Helper: which value `Plan` leaves in
`last_publishable_trajectory_`: the freshly planned publishable
trajectory exactly when the planner strategy succeeded (`Plan`
installs it *before* partitioning and collision checking), and no
assignment otherwise. -/
lemma planStage_lpOpt_eq (o : MathOracle) (cfg : VehicleParam)
    (env : CycleEnv) (flags : Flags) (ts : ℚ) (stitching : List TrajPoint)
    (sb : TrajPoint) (pb : ADCTrajectory) (st : Status)
    (lpOpt : Option PublishableTraj) (pb1 : ADCTrajectory)
    (h : planStage o cfg env flags ts stitching sb pb =
      some (st, lpOpt, pb1)) :
    lpOpt = if env.plannerStatus = statusOK then
        some (plannedPublishable flags env.plannerTraj stitching sb ts)
      else none := by
  unfold planStage at h
  by_cases hp : env.plannerStatus = statusOK
  · rw [if_neg (by simp [hp])] at h
    rw [if_pos hp]
    cases hpart : trajectoryPartition o env.vehicleState
        (plannedPublishable flags env.plannerTraj stitching sb ts).points
        pb with
    | none =>
      simp only [hpart] at h
      exact Option.noConfusion h
    | some stpb =>
      obtain ⟨st2, pb2⟩ := stpb
      simp only [hpart] at h
      by_cases hst : st2 = statusOK
      · rw [if_neg (by simp [hst])] at h
        cases hcol : isCollisionFreeTrajectory o cfg env.hasOverlap
            (buildPredictedEnvironment env.obstacles
              flags.trajectoryTimeLength flags.trajectoryTimeResolution)
            pb2.trajectoryPoint with
        | none =>
          simp only [hcol] at h
          exact Option.noConfusion h
        | some b =>
          cases b <;> simp only [hcol] at h <;>
            simp only [Option.some_inj, Prod.mk.injEq] at h <;>
            exact h.2.1.symm
      · rw [if_pos hst] at h
        simp only [Option.some_inj, Prod.mk.injEq] at h
        exact h.2.1.symm
  · rw [if_pos hp] at h
    rw [if_neg hp]
    simp only [Option.some_inj, Prod.mk.injEq] at h
    exact h.2.1.symm

/-- Helper: `FillPlanningPb` stamps the header with the cycle start
timestamp. -/
lemma fillPlanningPb_timestampSec (now ts : ℚ) (ph : Option PredHeader)
    (routing : RoutingResponse) (flags : Flags) (fb : List TrajPoint)
    (pb : ADCTrajectory) :
    (fillPlanningPb now ts ph routing flags fb pb).header.timestampSec =
      some ts := by
  cases ph <;> rfl

/-- Helper: the trajectory points written by `FillPlanningPb`: the
fallback-substituted list, each `relative_time` shifted by
`-(timestamp - now)`. -/
lemma fillPlanningPb_points (now ts : ℚ) (ph : Option PredHeader)
    (routing : RoutingResponse) (flags : Flags) (fb : List TrajPoint)
    (pb : ADCTrajectory) :
    (fillPlanningPb now ts ph routing flags fb pb).trajectoryPoint =
      (basePoints flags fb pb.trajectoryPoint).map fun p =>
        { p with relativeTime := p.relativeTime - (ts - now) } := by
  cases ph <;> rfl

/-- Helper: `basePoints` is the identity on a nonempty point list. -/
lemma basePoints_of_ne_nil (flags : Flags) (fb l : List TrajPoint)
    (h : l ≠ []) : basePoints flags fb l = l := by
  unfold basePoints
  rw [if_neg fun hcon => h (List.length_eq_zero.mp hcon.2)]

/-- Helper: two successive relative-time shifts compose. -/
lemma map_shift_shift (l : List TrajPoint) (d1 d2 : ℚ) :
    (l.map fun p => { p with relativeTime := p.relativeTime - d1 }).map
      (fun p => { p with relativeTime := p.relativeTime - d2 }) =
    l.map fun p => { p with relativeTime := p.relativeTime - d1 - d2 } := by
  rw [List.map_map]
  rfl

/-- Helper: applying the fallback substitution and time shift twice
composes into the substitution once and the sum of the two shifts. -/
lemma basePoints_double_shift (flags : Flags) (fb l : List TrajPoint)
    (d1 d2 : ℚ) :
    (basePoints flags fb ((basePoints flags fb l).map fun p =>
        { p with relativeTime := p.relativeTime - d1 })).map
      (fun p => { p with relativeTime := p.relativeTime - d2 }) =
    (basePoints flags fb l).map fun p =>
      { p with relativeTime := p.relativeTime - d1 - d2 } := by
  by_cases hB : basePoints flags fb l = []
  · rw [hB]
    simp only [List.map_nil]
    unfold basePoints at hB ⊢
    by_cases hf : flags.usePlanningFallback = true
    · by_cases hl : l.length = 0
      · rw [if_pos ⟨hf, hl⟩] at hB
        rw [if_pos ⟨hf, rfl⟩, hB]
        rfl
      · rw [if_neg fun hcon => hl hcon.2] at hB
        exact absurd (by rw [hB]; rfl) hl
    · rw [if_neg fun hcon => hf hcon.1]
      rfl
  · have h1 : (basePoints flags fb l).map
        (fun p => { p with relativeTime := p.relativeTime - d1 }) ≠ [] := by
      intro hcon
      exact hB (List.map_eq_nil_iff.mp hcon)
    rw [basePoints_of_ne_nil flags fb _ h1, map_shift_shift]

/-- Helper: the points present on the init-failure path before any
`FillPlanningPb` runs: none under the estop policy (the estop record
is fresh), the incoming record points otherwise. -/
lemma initFailBase_points (env : CycleEnv) (flags : Flags)
    (pbIn : ADCTrajectory) :
    (initFailBase env flags pbIn).trajectoryPoint =
      if flags.publishEstop then [] else pbIn.trajectoryPoint := by
  by_cases hpe : flags.publishEstop = true <;> simp [initFailBase, hpe]

/-- Helper: the output points of the frame-initialisation failure
path: the relative-time correction is applied twice, once per
`FillPlanningPb` call. -/
lemma initFailPb_points (env : CycleEnv) (flags : Flags)
    (pbIn : ADCTrajectory) :
    (initFailPb env flags pbIn).trajectoryPoint =
      (basePoints flags env.fallback
        (if flags.publishEstop then [] else pbIn.trajectoryPoint)).map
        fun p => { p with relativeTime := p.relativeTime -
          (env.clock 0 - env.clock 2) - (env.clock 0 - env.clock 3) } := by
  rw [initFailPb, fillPlanningPb_points, fillPlanningPb_points,
    initFailBase_points]
  exact basePoints_double_shift flags env.fallback _ _ _

/-- Helper: the init-failure output carries the cycle start
timestamp. -/
lemma initFailPb_timestampSec (env : CycleEnv) (flags : Flags)
    (pbIn : ADCTrajectory) :
    (initFailPb env flags pbIn).header.timestampSec =
      some (env.clock 0) := by
  rw [initFailPb, fillPlanningPb_timestampSec]

/-- Helper: the post-`Plan` output carries the cycle start
timestamp. -/
lemma postPlanPb_timestampSec (env : CycleEnv) (flags : Flags)
    (b : Bool) (st : Status) (pb1 : ADCTrajectory) :
    (postPlanPb env flags b st pb1).header.timestampSec =
      some (env.clock 0) := by
  rw [postPlanPb]
  exact fillPlanningPb_timestampSec _ _ _ _ _ _ _

/-- Helper: `FillPlanningPb` leaves the header status untouched. -/
lemma fillPlanningPb_status (now ts : ℚ) (ph : Option PredHeader)
    (routing : RoutingResponse) (flags : Flags) (fb : List TrajPoint)
    (pb : ADCTrajectory) :
    (fillPlanningPb now ts ph routing flags fb pb).header.status =
      pb.header.status := by
  cases ph <;> rfl

/-- Helper: a failed `Plan` status is saved into the output header on
the post-plan path. -/
lemma postPlanPb_status_fail (env : CycleEnv) (flags : Flags) (b : Bool)
    (st : Status) (pb1 : ADCTrajectory) (hst : st.isOk = false) :
    (postPlanPb env flags b st pb1).header.status = some st := by
  unfold postPlanPb
  rw [fillPlanningPb_status]
  by_cases hpe : flags.publishEstop = true <;> simp [hst, hpe]

/-! ## Orchestrator fixtures -/

/-- A fully successful cycle environment: valid state, stitcher
returning a single warm-start point, planner returning a three-point
forward trajectory, no obstacles. -/
def envOk : CycleEnv :=
  { clock := fun n => (n : ℚ), updateStatus := statusOK,
    vehicleState := {}, routing := {}, predictionHeader := none,
    stitcher := fun _ => [mkPt 0 1 0],
    initFrameStatus := statusOK, plannerStatus := statusOK,
    plannerTraj := [mkPt 0 1 0, mkPt 1 1 1, mkPt 2 1 2],
    obstacles := [], hasOverlap := fun _ _ => false, fallback := [] }

/-- As `envOk` but the planner returns only two points, so the
partition stage fails after `Plan` has already replaced
`last_publishable_trajectory_`. -/
def envC1 : CycleEnv := { envOk with plannerTraj := [mkPt 0 1 0, mkPt 1 1 1] }

/-- As `envOk` but the vehicle state carries a NaN `x`. -/
def envNan : CycleEnv := { envOk with vehicleState := { x := FVal.nan } }

/-- As `envOk` but frame initialisation fails, with a one-point
fallback trajectory available. -/
def envIF : CycleEnv :=
  { envOk with initFrameStatus := planningError ("IF"),
               fallback := [mkPt 0 0 5] }

/-- Flag set with the planning fallback enabled. -/
def flagsFB : Flags := { usePlanningFallback := true }

/-! ## C1 — when the last published trajectory is replaced -/

/-- C1 (amended): on every defined cycle,
`last_publishable_trajectory_` is replaced exactly when the
vehicle-state gate, frame initialisation and the *planner stage*
succeed; the replacement happens inside `Plan` before partitioning
and collision checking, so a cycle failing at TrajectoryPartition or
the collision check still leaves the newly planned trajectory
installed instead of the value from the start of the cycle. -/
theorem c1_last_publishable_update (env : CycleEnv) (flags : Flags)
    (cfg : VehicleParam) (o : MathOracle) (s : PlanningState)
    (pbIn : ADCTrajectory) (s' : PlanningState) (pb' : ADCTrajectory)
    (h : runOnce env flags cfg o s pbIn = some (s', pb')) :
    s'.lastPublishable =
      if isVehicleStateValid env.vehicleState = true ∧
          env.initFrameStatus.isOk = true ∧
          env.plannerStatus = statusOK then
        some (plannedPublishable flags env.plannerTraj
          (env.stitcher s.lastPublishable)
          ((env.stitcher s.lastPublishable).getLast?.getD default)
          (env.clock 0))
      else s.lastPublishable := by
  by_cases hgate : isVehicleStateValid env.vehicleState = true
  · cases hstitch : (env.stitcher s.lastPublishable).getLast? with
    | none =>
      rw [runOnce_stitch_none_eq env flags cfg o s pbIn hgate hstitch] at h
      exact Option.noConfusion h
    | some sb =>
      by_cases hinit : env.initFrameStatus.isOk = true
      · cases hplan : planStage o cfg env flags (env.clock 0)
            (env.stitcher s.lastPublishable) sb
            { pbIn with
              latencyInitFrameTimeMs :=
                some (env.clock 1 - env.clock 0) } with
        | none =>
          rw [runOnce_plan_none_eq env flags cfg o s pbIn sb hgate hstitch
            hinit hplan] at h
          exact Option.noConfusion h
        | some r =>
          obtain ⟨st, lpOpt, pb1⟩ := r
          rw [runOnce_plan_some_eq env flags cfg o s pbIn sb st lpOpt pb1
            hgate hstitch hinit hplan] at h
          simp only [Option.some_inj, Prod.mk.injEq] at h
          obtain ⟨hs, -⟩ := h
          subst hs
          have hlp := planStage_lpOpt_eq o cfg env flags (env.clock 0)
            (env.stitcher s.lastPublishable) sb _ st lpOpt pb1 hplan
          show lpOpt.or s.lastPublishable = _
          rw [hlp]
          by_cases hp : env.plannerStatus = statusOK
          · simp [hp, hgate, hinit, Option.or]
          · simp [hp, Option.or]
      · have hinitf : env.initFrameStatus.isOk = false := by
          simpa using hinit
        rw [runOnce_init_fail_eq env flags cfg o s pbIn sb hgate hstitch
          hinitf] at h
        simp only [Option.some_inj, Prod.mk.injEq] at h
        obtain ⟨hs, -⟩ := h
        subst hs
        simp [hinitf]
  · have hgatef : isVehicleStateValid env.vehicleState = false := by
      simpa using hgate
    rw [runOnce_gate_fail_eq env flags cfg o s pbIn hgatef] at h
    simp only [Option.some_inj, Prod.mk.injEq] at h
    obtain ⟨hs, -⟩ := h
    subst hs
    simp [hgatef]

/-- C1 counterexample: with `envC1` the planner succeeds with a
two-point trajectory, so TrajectoryPartition fails the cycle
("Invalid trajectory length!"), yet `last_publishable_trajectory_`
does not retain its start-of-cycle value `none` — it now holds the
newly planned trajectory. -/
theorem c1_counterexample :
    ((runOnce envC1 {} {} oId {} {}).map fun r =>
      (r.1.lastPublishable.isSome, r.2.header.status)) =
      some (true, some (planningError ("Invalid trajectory length!"))) ∧
    ({} : PlanningState).lastPublishable.isSome = false := by
  have hplan : planStage oId {} envC1 {} (envC1.clock 0)
      (envC1.stitcher ({} : PlanningState).lastPublishable) (mkPt 0 1 0)
      { ({} : ADCTrajectory) with
        latencyInitFrameTimeMs :=
          some (envC1.clock 1 - envC1.clock 0) } =
      some (planningError ("Invalid trajectory length!"),
        some (plannedPublishable {} envC1.plannerTraj
          (envC1.stitcher ({} : PlanningState).lastPublishable)
          (mkPt 0 1 0) (envC1.clock 0)),
        { ({} : ADCTrajectory) with
          latencyInitFrameTimeMs :=
            some (envC1.clock 1 - envC1.clock 0) }) := by
    rfl
  have hr := runOnce_plan_some_eq envC1 {} {} oId {} {} (mkPt 0 1 0) _ _ _
    (by rfl) (by rfl) (by rfl) hplan
  rw [hr]
  refine ⟨?_, rfl⟩
  have hstatus := postPlanPb_status_fail envC1 {}
    (decide ((envC1.stitcher ({} : PlanningState).lastPublishable).length
      = 1))
    (planningError ("Invalid trajectory length!"))
    { ({} : ADCTrajectory) with
      latencyInitFrameTimeMs := some (envC1.clock 1 - envC1.clock 0) } rfl
  simp [Option.or, hstatus]

/-- C1 witness: the amended update rule evaluated on the
frame-initialisation failure environment `envIF` (the gate passes,
frame init fails, so the last publishable trajectory is retained). -/
theorem c1_witness :
    ((runOnce envIF {} {} oId {} {}).map fun r => r.1.lastPublishable) =
      some (if isVehicleStateValid envIF.vehicleState = true ∧
          envIF.initFrameStatus.isOk = true ∧
          envIF.plannerStatus = statusOK then
        some (plannedPublishable {} envIF.plannerTraj
          (envIF.stitcher ({} : PlanningState).lastPublishable)
          ((envIF.stitcher
            ({} : PlanningState).lastPublishable).getLast?.getD default)
          (envIF.clock 0))
      else ({} : PlanningState).lastPublishable) := by
  have hr := runOnce_init_fail_eq envIF {} {} oId {} {} (mkPt 0 1 0)
    (by rfl) (by rfl) (by rfl)
  rw [hr]
  simp only [Option.map_some]
  exact congrArg some
    (c1_last_publishable_update envIF {} {} oId {} {} _ _ hr)

/-! ## C3 — archival and header discipline of `RunOnce` -/

/-- C3 (amended): every *defined* cycle ends with the output header
stamped with the cycle start timestamp; every cycle that passes the
vehicle-state gate is archived into the frame history under the
pre-increment sequence counter, which then advances by one (so
archived keys strictly increase across cycles); but a cycle failing
vehicle-state validation is *not* archived and leaves the counter
unchanged — only its output header is filled. -/
theorem c3_archival_and_header (env : CycleEnv) (flags : Flags)
    (cfg : VehicleParam) (o : MathOracle) (s : PlanningState)
    (pbIn : ADCTrajectory) (s' : PlanningState) (pb' : ADCTrajectory)
    (h : runOnce env flags cfg o s pbIn = some (s', pb')) :
    pb'.header.timestampSec = some (env.clock 0) ∧
    (isVehicleStateValid env.vehicleState = true →
      s'.frameHistory = (s.seqNum, pb') :: s.frameHistory ∧
      s'.seqNum = s.seqNum + 1) ∧
    (isVehicleStateValid env.vehicleState = false →
      s'.frameHistory = s.frameHistory ∧ s'.seqNum = s.seqNum) := by
  by_cases hgate : isVehicleStateValid env.vehicleState = true
  · cases hstitch : (env.stitcher s.lastPublishable).getLast? with
    | none =>
      rw [runOnce_stitch_none_eq env flags cfg o s pbIn hgate hstitch] at h
      exact Option.noConfusion h
    | some sb =>
      by_cases hinit : env.initFrameStatus.isOk = true
      · cases hplan : planStage o cfg env flags (env.clock 0)
            (env.stitcher s.lastPublishable) sb
            { pbIn with
              latencyInitFrameTimeMs :=
                some (env.clock 1 - env.clock 0) } with
        | none =>
          rw [runOnce_plan_none_eq env flags cfg o s pbIn sb hgate hstitch
            hinit hplan] at h
          exact Option.noConfusion h
        | some r =>
          obtain ⟨st, lpOpt, pb1⟩ := r
          rw [runOnce_plan_some_eq env flags cfg o s pbIn sb st lpOpt pb1
            hgate hstitch hinit hplan] at h
          simp only [Option.some_inj, Prod.mk.injEq] at h
          obtain ⟨hs, hpb⟩ := h
          subst hs
          subst hpb
          refine ⟨postPlanPb_timestampSec env flags _ st pb1, ?_, ?_⟩
          · intro _
            exact ⟨rfl, rfl⟩
          · intro hf
            rw [hgate] at hf
            exact Bool.noConfusion hf
      · have hinitf : env.initFrameStatus.isOk = false := by
          simpa using hinit
        rw [runOnce_init_fail_eq env flags cfg o s pbIn sb hgate hstitch
          hinitf] at h
        simp only [Option.some_inj, Prod.mk.injEq] at h
        obtain ⟨hs, hpb⟩ := h
        subst hs
        subst hpb
        refine ⟨initFailPb_timestampSec env flags pbIn, ?_, ?_⟩
        · intro _
          exact ⟨rfl, rfl⟩
        · intro hf
          rw [hgate] at hf
          exact Bool.noConfusion hf
  · have hgatef : isVehicleStateValid env.vehicleState = false := by
      simpa using hgate
    rw [runOnce_gate_fail_eq env flags cfg o s pbIn hgatef] at h
    simp only [Option.some_inj, Prod.mk.injEq] at h
    obtain ⟨hs, hpb⟩ := h
    subst hs
    subst hpb
    refine ⟨fillPlanningPb_timestampSec _ _ _ _ _ _ _, ?_, ?_⟩
    · intro hf
      rw [hgatef] at hf
      exact Bool.noConfusion hf
    · intro _
      exact ⟨rfl, rfl⟩

/-- C3 counterexample: a cycle failing vehicle-state validation (NaN
`x`) terminates with *no* archival record — the frame history stays
empty and the sequence counter does not move — contradicting the
claim that every cycle is archived. -/
theorem c3_counterexample :
    isVehicleStateValid envNan.vehicleState = false ∧
    ((runOnce envNan {} {} oId {} {}).map fun r =>
      (r.1.frameHistory.length, r.1.seqNum)) = some (0, 0) := by
  refine ⟨rfl, ?_⟩
  rw [runOnce_gate_fail_eq envNan {} {} oId {} {} rfl]
  rfl

/-- C3 witness: the amended archival rule evaluated on the
frame-initialisation failure environment `envIF`: the cycle is
archived under key 0 and the counter advances to 1, and the header is
stamped. -/
theorem c3_witness :
    ((runOnce envIF {} {} oId {} {}).map fun r =>
      (r.2.header.timestampSec, r.1.seqNum, r.1.frameHistory.length)) =
      some (some (envIF.clock 0), 1, 1) := by
  have hr := runOnce_init_fail_eq envIF {} {} oId {} {} (mkPt 0 1 0)
    (by rfl) (by rfl) (by rfl)
  have hc := c3_archival_and_header envIF {} {} oId {} {} _ _ hr
  rw [hr]
  simp [hc.1, (hc.2.1 rfl).1]

/-! ## C10 — double time correction on the init-failure path -/

/-- C10: on the frame-initialisation failure path `FillPlanningPb` is
applied twice to the output record, so every trajectory point present
in the output — the incoming points under the soft policy, or a
substituted fallback trajectory — receives the wall-clock
relative-time correction twice: once with the clock reading of the
first call and once with that of the second. -/
theorem c10_double_time_correction (env : CycleEnv) (flags : Flags)
    (cfg : VehicleParam) (o : MathOracle) (s : PlanningState)
    (pbIn : ADCTrajectory) (s' : PlanningState) (pb' : ADCTrajectory)
    (h : runOnce env flags cfg o s pbIn = some (s', pb'))
    (hgate : isVehicleStateValid env.vehicleState = true)
    (hfail : env.initFrameStatus.isOk = false) :
    pb'.trajectoryPoint =
      (basePoints flags env.fallback
        (if flags.publishEstop then [] else pbIn.trajectoryPoint)).map
        fun p => { p with relativeTime := p.relativeTime -
          (env.clock 0 - env.clock 2) - (env.clock 0 - env.clock 3) } := by
  cases hstitch : (env.stitcher s.lastPublishable).getLast? with
  | none =>
    rw [runOnce_stitch_none_eq env flags cfg o s pbIn hgate hstitch] at h
    exact Option.noConfusion h
  | some sb =>
    rw [runOnce_init_fail_eq env flags cfg o s pbIn sb hgate hstitch
      hfail] at h
    simp only [Option.some_inj, Prod.mk.injEq] at h
    obtain ⟨-, hpb⟩ := h
    subst hpb
    exact initFailPb_points env flags pbIn

/-- C10 witness: the double correction observed on `envIF` with the
fallback substituted: the fallback point at `relative_time = 5` is
published at `5 - (0 - 2) - (0 - 3) = 10`, shifted twice. -/
theorem c10_witness :
    ((runOnce envIF flagsFB {} oId {} {}).map fun r =>
      r.2.trajectoryPoint) =
      some ((basePoints flagsFB envIF.fallback
        (if flagsFB.publishEstop then [] else
          ({} : ADCTrajectory).trajectoryPoint)).map
        fun p => { p with relativeTime := p.relativeTime -
          (envIF.clock 0 - envIF.clock 2) -
          (envIF.clock 0 - envIF.clock 3) }) := by
  have hr := runOnce_init_fail_eq envIF flagsFB {} oId {} {} (mkPt 0 1 0)
    (by rfl) (by rfl) (by rfl)
  rw [hr]
  simp only [Option.map_some]
  exact congrArg some
    (c10_double_time_correction envIF flagsFB {} oId {} {} _ _ hr rfl rfl)

/-! ## C7 — segment selection and time normalisation

The selection double loop is re-expressed as a left fold over the
scan-ordered candidate list (one candidate per partitioned point,
indexed by segment and point position); `selectSegs_eq_foldl` proves
the re-expression equal to the source loops. -/

/-- One step of the selection loop: keep the strictly closer
candidate, so the first occurrence wins ties. -/
def selStep (vx vy : ℚ) (acc : ℚ × ℕ × ℕ) (c : (ℕ × ℕ) × TrajPoint) :
    ℚ × ℕ × ℕ :=
  if selDist vx vy c.2 < acc.1 then (selDist vx vy c.2, c.1) else acc

/-- The candidates of one segment `i`, starting at point index `j`. -/
def candSeg (i : ℕ) : List TrajPoint → ℕ → List ((ℕ × ℕ) × TrajPoint)
  | [], _ => []
  | p :: rest, j => ((i, j), p) :: candSeg i rest (j + 1)

/-- The candidates of all segments, starting at segment index `i`, in
scan order. -/
def candSegs : List (List TrajPoint) → ℕ → List ((ℕ × ℕ) × TrajPoint)
  | [], _ => []
  | seg :: rest, i => candSeg i seg 0 ++ candSegs rest (i + 1)

/-- All (segment index, point index, point) candidates of the
partition, in the source's scan order. -/
def candPairs (segs : List (List TrajPoint)) :
    List ((ℕ × ℕ) × TrajPoint) :=
  candSegs segs 0

/-- Helper: the inner selection loop is the fold of `selStep` over the
segment's candidates. -/
lemma selectInSeg_eq_foldl (vx vy : ℚ) (i : ℕ) (seg : List TrajPoint) :
    ∀ (j : ℕ) (acc : ℚ × ℕ × ℕ),
      selectInSeg vx vy i seg j acc =
        (candSeg i seg j).foldl (selStep vx vy) acc := by
  induction seg with
  | nil => intro j acc; rfl
  | cons p rest ih =>
    intro j acc
    obtain ⟨m, bi, bj⟩ := acc
    simp only [selectInSeg, candSeg, List.foldl_cons]
    by_cases hd : selDist vx vy p < m
    · rw [if_pos hd, ih]
      congr 1
      simp [selStep, hd]
    · rw [if_neg hd, ih]
      congr 1
      simp [selStep, hd]

/-- Helper: the outer selection loop is the fold of `selStep` over all
candidates. -/
lemma selectSegs_eq_foldl (vx vy : ℚ) (segs : List (List TrajPoint)) :
    ∀ (i : ℕ) (acc : ℚ × ℕ × ℕ),
      selectSegs vx vy segs i acc =
        (candSegs segs i).foldl (selStep vx vy) acc := by
  induction segs with
  | nil => intro i acc; rfl
  | cons seg rest ih =>
    intro i acc
    simp only [selectSegs, candSegs, List.foldl_append]
    rw [ih, selectInSeg_eq_foldl]

/-- Helper: `selectClosest` as a fold over the candidate list,
starting from `std::numeric_limits<double>::max()`. -/
lemma selectClosest_eq_foldl (vx vy : ℚ) (segs : List (List TrajPoint)) :
    selectClosest vx vy segs =
      ((candPairs segs).foldl (selStep vx vy) (dblMax, 0, 0)).2 := by
  unfold selectClosest candPairs
  rw [selectSegs_eq_foldl]

/-- Helper: the candidate points of one segment are the segment. -/
lemma candSeg_snd (i : ℕ) (seg : List TrajPoint) :
    ∀ j : ℕ, (candSeg i seg j).map Prod.snd = seg := by
  induction seg with
  | nil => intro j; rfl
  | cons p rest ih =>
    intro j
    simp only [candSeg, List.map_cons, ih]

/-- Helper: the candidate points of the whole partition are its
points in scan order. -/
lemma candSegs_snd (segs : List (List TrajPoint)) :
    ∀ i : ℕ, (candSegs segs i).map Prod.snd = segs.flatten := by
  induction segs with
  | nil => intro i; rfl
  | cons seg rest ih =>
    intro i
    simp only [candSegs, List.map_append, candSeg_snd, ih,
      List.flatten_cons]

/-- Helper: candidate indices of one segment are accurate. -/
lemma candSeg_mem (i : ℕ) (seg : List TrajPoint) :
    ∀ (j0 : ℕ) (c : (ℕ × ℕ) × TrajPoint), c ∈ candSeg i seg j0 →
      c.1.1 = i ∧ j0 ≤ c.1.2 ∧ c.1.2 - j0 < seg.length ∧
        seg.getD (c.1.2 - j0) default = c.2 := by
  induction seg with
  | nil => intro j0 c hc; cases hc
  | cons p rest ih =>
    intro j0 c hc
    rcases List.mem_cons.mp hc with rfl | hc2
    · exact ⟨rfl, le_refl _, by simp, by simp⟩
    · obtain ⟨h1, h2, h3, h4⟩ := ih (j0 + 1) c hc2
      have hk : c.1.2 - j0 = (c.1.2 - (j0 + 1)) + 1 := by omega
      refine ⟨h1, by omega, ?_, ?_⟩
      · simp only [List.length_cons]
        omega
      · rw [hk]
        simpa using h4

/-- Helper: candidate indices of the whole partition are accurate. -/
lemma candSegs_mem (segs : List (List TrajPoint)) :
    ∀ (i0 : ℕ) (c : (ℕ × ℕ) × TrajPoint), c ∈ candSegs segs i0 →
      i0 ≤ c.1.1 ∧ c.1.1 - i0 < segs.length ∧
      c.1.2 < (segs.getD (c.1.1 - i0) []).length ∧
      (segs.getD (c.1.1 - i0) []).getD c.1.2 default = c.2 := by
  induction segs with
  | nil => intro i0 c hc; cases hc
  | cons seg rest ih =>
    intro i0 c hc
    rcases List.mem_append.mp hc with hc1 | hc2
    · obtain ⟨h1, h2, h3, h4⟩ := candSeg_mem i0 seg 0 c hc1
      have h0 : c.1.1 - i0 = 0 := by omega
      refine ⟨by omega, by simp [h0], ?_, ?_⟩
      · rw [h0]
        simpa using h3
      · rw [h0]
        simpa using h4
    · obtain ⟨h1, h2, h3, h4⟩ := ih (i0 + 1) c hc2
      have hk : c.1.1 - i0 = (c.1.1 - (i0 + 1)) + 1 := by omega
      refine ⟨by omega, ?_, ?_, ?_⟩
      · simp only [List.length_cons]
        omega
      · rw [hk]
        simpa using h3
      · rw [hk]
        simpa using h4

/-- Helper: full characterisation of the fold of `selStep`: the result
bounds every candidate from below; either no candidate beat the
initial bound and the accumulator is unchanged, or the result is the
*first* candidate attaining the minimum — every candidate scanned
before it is strictly farther, and every candidate anywhere is no
closer. -/
lemma foldl_selStep_spec (vx vy : ℚ)
    (L : List ((ℕ × ℕ) × TrajPoint)) :
    ∀ acc : ℚ × ℕ × ℕ,
      (∀ c ∈ L, (L.foldl (selStep vx vy) acc).1 ≤ selDist vx vy c.2) ∧
      (L.foldl (selStep vx vy) acc).1 ≤ acc.1 ∧
      (((L.foldl (selStep vx vy) acc) = acc ∧
        ∀ c ∈ L, acc.1 ≤ selDist vx vy c.2) ∨
       ∃ pre w post, L = pre ++ w :: post ∧
         (L.foldl (selStep vx vy) acc).1 = selDist vx vy w.2 ∧
         (L.foldl (selStep vx vy) acc).2 = w.1 ∧
         (∀ c ∈ pre, selDist vx vy w.2 < selDist vx vy c.2) ∧
         selDist vx vy w.2 < acc.1) := by
  induction L with
  | nil =>
    intro acc
    exact ⟨by simp, le_refl _, Or.inl ⟨rfl, by simp⟩⟩
  | cons c L ih =>
    intro acc
    by_cases hd : selDist vx vy c.2 < acc.1
    · have hstep : selStep vx vy acc c = (selDist vx vy c.2, c.1) := by
        simp [selStep, hd]
      obtain ⟨ih1, ih2, ih3⟩ := ih (selStep vx vy acc c)
      rw [List.foldl_cons]
      have hle : (L.foldl (selStep vx vy) (selStep vx vy acc c)).1 ≤
          selDist vx vy c.2 :=
        calc (L.foldl (selStep vx vy) (selStep vx vy acc c)).1
            ≤ (selStep vx vy acc c).1 := ih2
          _ = selDist vx vy c.2 := by rw [hstep]
      refine ⟨?_, le_of_lt (lt_of_le_of_lt hle hd), ?_⟩
      · intro x hx
        rcases List.mem_cons.mp hx with rfl | hx2
        · exact hle
        · exact ih1 x hx2
      · rcases ih3 with ⟨heq, -⟩ | ⟨pre, w, post, hsplit, h1, h2, hpre, hlt⟩
        · refine Or.inr ⟨[], c, L, rfl, ?_, ?_, by simp, hd⟩
          · rw [heq, hstep]
          · rw [heq, hstep]
        · rw [hstep] at hlt
          refine Or.inr ⟨c :: pre, w, post,
            by rw [hsplit, List.cons_append], h1, h2, ?_,
            lt_trans hlt hd⟩
          intro x hx
          rcases List.mem_cons.mp hx with rfl | hx2
          · exact hlt
          · exact hpre x hx2
    · have hstep : selStep vx vy acc c = acc := by
        simp [selStep, hd]
      obtain ⟨ih1, ih2, ih3⟩ := ih (selStep vx vy acc c)
      rw [List.foldl_cons]
      rw [hstep] at ih1 ih2 ih3 ⊢
      refine ⟨?_, ih2, ?_⟩
      · intro x hx
        rcases List.mem_cons.mp hx with rfl | hx2
        · exact le_trans ih2 (not_lt.mp hd)
        · exact ih1 x hx2
      · rcases ih3 with ⟨heq, hall⟩ | ⟨pre, w, post, hsplit, h1, h2, hpre,
          hlt⟩
        · refine Or.inl ⟨heq, ?_⟩
          intro x hx
          rcases List.mem_cons.mp hx with rfl | hx2
          · exact not_lt.mp hd
          · exact hall x hx2
        · refine Or.inr ⟨c :: pre, w, post,
            by rw [hsplit, List.cons_append], h1, h2, ?_, hlt⟩
          intro x hx
          rcases List.mem_cons.mp hx with rfl | hx2
          · exact lt_of_lt_of_le hlt (not_lt.mp hd)
          · exact hpre x hx2

/-- Helper: the partition loop copies each input point's
`relative_time` into exactly one output point, in scan order: the
flattened output times are the accumulated prefix plus the remaining
input times. -/
lemma segLoop_flatten_rt (o : MathOracle) (pts : List TrajPoint) :
    ∀ (prev : Option TrajPoint) (g : GearPosition) (dist : ℚ)
      (closed : List (List TrajPoint × GearPosition))
      (cur : List TrajPoint),
      (((segLoop o pts prev g dist closed cur).map
        Prod.fst).flatten).map (·.relativeTime) =
      ((closed.map Prod.fst).flatten ++ cur).map (·.relativeTime) ++
        pts.map (·.relativeTime) := by
  induction pts with
  | nil =>
    intro prev g dist closed cur
    simp [segLoop]
  | cons p rest ih =>
    intro prev g dist closed cur
    simp only [segLoop]
    split_ifs with h1 h2
    · rw [ih]
      simp [outPoint]
    · rw [ih]
      simp [outPoint]
    · rw [ih]
      simp [outPoint]

/-- Helper: the partitioned segments carry exactly the input
trajectory's `relative_time` sequence, flattened in order. -/
lemma partitionSegmentsOf_flatten_rt (o : MathOracle)
    (pts : List TrajPoint) (segsG : List (List TrajPoint × GearPosition))
    (hseg : partitionSegmentsOf o pts = some segsG) :
    ((segsG.map Prod.fst).flatten).map (·.relativeTime) =
      pts.map (·.relativeTime) := by
  unfold partitionSegmentsOf at hseg
  cases hdec : initialGearDecision pts with
  | ub =>
    rw [hdec] at hseg
    exact Option.noConfusion hseg
  | ambiguous =>
    rw [hdec] at hseg
    exact Option.noConfusion hseg
  | gear g =>
    rw [hdec] at hseg
    simp only [Option.some_inj] at hseg
    subst hseg
    have h := segLoop_flatten_rt o pts none g 0 [] []
    simpa using h

/-- Helper: the point the time normalisation subtracts reads exactly
`0` afterwards. -/
lemma timeNormalize_getD_rt (seg : List TrajPoint) (k : ℕ)
    (hk : k < seg.length) :
    ((timeNormalize seg k).getD k default).relativeTime = 0 := by
  unfold timeNormalize
  rw [List.getD_eq_getElem _ _ (by simpa using hk)]
  rw [List.getElem_map]
  simp [List.getD_eq_getElem seg default hk,
    List.getElem?_eq_getElem hk]

/-- Helper: the normalised times are the segment times shifted by a
constant. -/
lemma timeNormalize_map_rt (seg : List TrajPoint) (k : ℕ) :
    (timeNormalize seg k).map (·.relativeTime) =
      (seg.map (·.relativeTime)).map
        (fun t => t - (seg.getD k default).relativeTime) := by
  unfold timeNormalize
  rw [List.map_map, List.map_map]
  rfl

/-- Helper: a successful `TrajectoryPartition` writes into the output
record exactly the time-normalised segment chosen by
`selectClosest`, together with its gear. -/
lemma trajectoryPartition_ok_eq (o : MathOracle) (vs : VehicleState)
    (pts : List TrajPoint) (pb : ADCTrajectory)
    (segsG : List (List TrajPoint × GearPosition)) (pb2 : ADCTrajectory)
    (hseg : partitionSegmentsOf o pts = some segsG)
    (hpart : trajectoryPartition o vs pts pb = some (statusOK, pb2)) :
    pb2.trajectoryPoint =
      timeNormalize ((segsG.map Prod.fst).getD
          (selectClosest vs.x.toQ vs.y.toQ (segsG.map Prod.fst)).1 [])
        (selectClosest vs.x.toQ vs.y.toQ (segsG.map Prod.fst)).2 := by
  unfold partitionSegmentsOf at hseg
  cases hdec : initialGearDecision pts with
  | ub =>
    rw [hdec] at hseg
    exact Option.noConfusion hseg
  | ambiguous =>
    rw [hdec] at hseg
    exact Option.noConfusion hseg
  | gear g =>
    rw [hdec] at hseg
    simp only [Option.some_inj] at hseg
    unfold trajectoryPartition at hpart
    by_cases hlen : pts.length < initialGearCheckHorizon
    · rw [if_pos hlen] at hpart
      simp [planningError, statusOK] at hpart
    · rw [if_neg hlen, hdec] at hpart
      simp only [hseg, Option.some_inj, Prod.mk.injEq] at hpart
      obtain ⟨-, hpb⟩ := hpart
      subst hpb
      rfl

/-- Helper: a successful `TrajectoryPartition` requires at least the
look-ahead number of points. -/
lemma trajectoryPartition_ok_len (o : MathOracle) (vs : VehicleState)
    (pts : List TrajPoint) (pb : ADCTrajectory) (pb2 : ADCTrajectory)
    (hpart : trajectoryPartition o vs pts pb = some (statusOK, pb2)) :
    initialGearCheckHorizon ≤ pts.length := by
  by_contra hlen
  unfold trajectoryPartition at hpart
  rw [if_pos (by omega)] at hpart
  simp [planningError, statusOK] at hpart

/-- C7: for every successfully partitioned trajectory, the emitted
segment and nearest-point index minimise the squared planar distance
to the vehicle position over *all* segments and *all* points (the
candidate list `candPairs` enumerates every partitioned point in the
source's scan order, and every candidate scanned before the winner is
strictly farther — first occurrence wins ties); the output record
holds exactly the time-normalised selected segment, the selected
nearest point's `relative_time` is exactly `0` afterwards, and —
given input `relative_time`s in non-decreasing order — the emitted
`relative_time`s are non-decreasing.  The `hcap` hypothesis records
that every candidate distance is below the loop's initial bound
`std::numeric_limits<double>::max()`, which always holds for finite
doubles. -/
theorem c7_nearest_selection (o : MathOracle) (vs : VehicleState)
    (pts : List TrajPoint) (pb pb2 : ADCTrajectory)
    (segsG : List (List TrajPoint × GearPosition))
    (hseg : partitionSegmentsOf o pts = some segsG)
    (hpart : trajectoryPartition o vs pts pb = some (statusOK, pb2))
    (hmono : List.Chain' (· ≤ ·) (pts.map (·.relativeTime)))
    (hcap : ∀ c ∈ candPairs (segsG.map Prod.fst),
      selDist vs.x.toQ vs.y.toQ c.2 < dblMax) :
    ∃ ci cj pre w post,
      selectClosest vs.x.toQ vs.y.toQ (segsG.map Prod.fst) = (ci, cj) ∧
      candPairs (segsG.map Prod.fst) = pre ++ w :: post ∧
      w.1 = (ci, cj) ∧
      ci < (segsG.map Prod.fst).length ∧
      cj < ((segsG.map Prod.fst).getD ci []).length ∧
      ((segsG.map Prod.fst).getD ci []).getD cj default = w.2 ∧
      (∀ c ∈ candPairs (segsG.map Prod.fst),
        selDist vs.x.toQ vs.y.toQ w.2 ≤ selDist vs.x.toQ vs.y.toQ c.2) ∧
      (∀ c ∈ pre,
        selDist vs.x.toQ vs.y.toQ w.2 < selDist vs.x.toQ vs.y.toQ c.2) ∧
      pb2.trajectoryPoint =
        timeNormalize ((segsG.map Prod.fst).getD ci []) cj ∧
      (pb2.trajectoryPoint.getD cj default).relativeTime = 0 ∧
      List.Chain' (· ≤ ·) (pb2.trajectoryPoint.map (·.relativeTime)) := by
  obtain ⟨hmin0, hinit0, hcase⟩ :=
    foldl_selStep_spec vs.x.toQ vs.y.toQ
      (candPairs (segsG.map Prod.fst)) (dblMax, 0, 0)
  rcases hcase with ⟨heq, hall⟩ | ⟨pre, w, post, hsplit, h1, h2, hpre, -⟩
  · exfalso
    have hlen3 := trajectoryPartition_ok_len o vs pts pb pb2 hpart
    have hflat := partitionSegmentsOf_flatten_rt o pts segsG hseg
    have hflen : ((segsG.map Prod.fst).flatten).length = pts.length := by
      have h := congrArg List.length hflat
      rwa [List.length_map, List.length_map] at h
    have hh : initialGearCheckHorizon = 3 := rfl
    have hcand : 0 < (candPairs (segsG.map Prod.fst)).length := by
      have h2 := congrArg List.length
        (candSegs_snd (segsG.map Prod.fst) 0)
      simp only [List.length_map] at h2
      unfold candPairs
      omega
    obtain ⟨c0, hc0⟩ := List.exists_mem_of_length_pos hcand
    exact absurd (hall c0 hc0) (not_le.mpr (hcap c0 hc0))
  · have hwmem : w ∈ candPairs (segsG.map Prod.fst) := by
      rw [hsplit]
      exact List.mem_append_right _ (List.mem_cons_self _ _)
    obtain ⟨-, hci, hcj, hwpt⟩ :=
      candSegs_mem (segsG.map Prod.fst) 0 w hwmem
    simp only [Nat.sub_zero] at hci hcj hwpt
    have hsel : selectClosest vs.x.toQ vs.y.toQ (segsG.map Prod.fst) =
        w.1 := by
      rw [selectClosest_eq_foldl]
      exact h2
    have hptseq := trajectoryPartition_ok_eq o vs pts pb segsG pb2 hseg
      hpart
    rw [hsel] at hptseq
    refine ⟨w.1.1, w.1.2, pre, w, post, hsel, hsplit, rfl, hci, hcj, hwpt,
      ?_, hpre, hptseq, ?_, ?_⟩
    · intro c hc
      have h := hmin0 c hc
      rw [h1] at h
      exact h
    · rw [hptseq]
      exact timeNormalize_getD_rt _ _ hcj
    · have hPW : List.Pairwise (· ≤ ·) (pts.map (·.relativeTime)) :=
        List.chain'_iff_pairwise.mp hmono
      have hflat := partitionSegmentsOf_flatten_rt o pts segsG hseg
      rw [← hflat] at hPW
      have hmem : ((segsG.map Prod.fst).getD w.1.1 []) ∈
          segsG.map Prod.fst := by
        rw [List.getD_eq_getElem _ _ hci]
        exact List.getElem_mem hci
      have hsub := (List.sublist_flatten_of_mem hmem).map
        (·.relativeTime)
      have hPW3 := hPW.sublist hsub
      rw [hptseq, timeNormalize_map_rt, List.chain'_iff_pairwise]
      exact hPW3.map _ fun a b hab => sub_le_sub_right hab _

/-- The single Drive segment the partitioner produces for `ptsC5`. -/
def C5seg : List TrajPoint :=
  [mkPt 0 0 0, mkPt 0 0 1, mkPt 0 0 2, mkPt 0 1 3,
   { mkPt 1 1 4 with s := 1 }, { mkPt 2 1 5 with s := 2 }]

/-- Evaluation of the segmentation on `ptsC5`. -/
lemma partition_ptsC5_eval :
    partitionSegmentsOf oId ptsC5 = some [(C5seg, GearPosition.drive)] := by
  norm_num [partitionSegmentsOf, initialGearDecision,
    initialGearCheckHorizon, gearScanAux, segLoop, outPoint, sqStep,
    kepsilon, ptsC5, C5seg, mkPt, oId, drive_eq_reverse_iff,
    reverse_eq_drive_iff]

/-- The output record of the partition stage on `ptsC5`. -/
def pb2C5 : ADCTrajectory :=
  { trajectoryPoint := C5seg, gear := some GearPosition.drive }

/-- Evaluation of the full partition stage on `ptsC5`: the vehicle
sits at the first point, so the selected nearest point is the first
and the time shift is zero. -/
lemma trajPartition_ptsC5_eval :
    trajectoryPartition oId {} ptsC5 {} = some (statusOK, pb2C5) := by
  norm_num [trajectoryPartition, initialGearDecision,
    initialGearCheckHorizon, gearScanAux, segLoop, outPoint, sqStep,
    selectClosest, selectSegs, selectInSeg, selDist, timeNormalize,
    dblMax, kepsilon, ptsC5, C5seg, pb2C5, mkPt, oId, FVal.toQ,
    drive_eq_reverse_iff, reverse_eq_drive_iff]

/-- C7 witness: the selection-and-normalisation theorem applied to
`ptsC5`: the winner is segment 0, point 0, its normalised
`relative_time` is `0`, and the emitted times are non-decreasing. -/
theorem c7_witness :
    selectClosest (({} : VehicleState).x.toQ) (({} : VehicleState).y.toQ)
      ([(C5seg, GearPosition.drive)].map Prod.fst) = (0, 0) ∧
    (pb2C5.trajectoryPoint.getD 0 default).relativeTime = 0 ∧
    List.Chain' (· ≤ ·) (pb2C5.trajectoryPoint.map (·.relativeTime)) := by
  have hm : List.Chain' (· ≤ ·) (ptsC5.map (·.relativeTime)) := by
    norm_num [ptsC5, mkPt, List.chain'_cons, List.chain'_singleton]
  have hcap : ∀ c ∈ candPairs ([(C5seg, GearPosition.drive)].map Prod.fst),
      selDist (({} : VehicleState).x.toQ) (({} : VehicleState).y.toQ)
        c.2 < dblMax := by
    intro c hc
    simp only [candPairs, candSegs, candSeg, C5seg, mkPt, List.map_cons,
      List.map_nil, List.append_nil, List.mem_cons,
      List.not_mem_nil, or_false] at hc
    rcases hc with rfl | rfl | rfl | rfl | rfl | rfl <;>
      norm_num [selDist, dblMax, FVal.toQ, mkPt]
  obtain ⟨ci, cj, pre, w, post, hsel, hsplit, hw1, hciL, hcjL, hwpt, hmin,
      hpre, hpts, h0, hchain⟩ :=
    c7_nearest_selection oId {} ptsC5 {} pb2C5 [(C5seg, GearPosition.drive)]
      partition_ptsC5_eval trajPartition_ptsC5_eval hm hcap
  have hselev : selectClosest (({} : VehicleState).x.toQ)
      (({} : VehicleState).y.toQ)
      ([(C5seg, GearPosition.drive)].map Prod.fst) = (0, 0) := by
    norm_num [selectClosest, selectSegs, selectInSeg, selDist, dblMax,
      C5seg, mkPt, FVal.toQ]
  have hij : (ci, cj) = ((0 : ℕ), (0 : ℕ)) := by rw [← hsel, hselev]
  rw [Prod.mk.injEq] at hij
  obtain ⟨rfl, rfl⟩ := hij
  exact ⟨hselev, h0, hchain⟩

end OpenSpace
